import Mathlib

/-!
Verification development for the agentwatch transcript-parsing library.

The TypeScript sources are embedded shallowly:

* JavaScript strings are Lean `String`s; line-level text processing works on
  `List Char` (`String.toList`), which matches JS UTF-16 processing on the
  code points that appear here.
* JSON values are the inductive `Json` below.  JSON numbers are modelled as
  a mantissa/decimal-exponent pair (`JsNum`), which represents every literal
  the transcripts use exactly; float rounding is not modelled.
* Host primitives are made explicit: the file is a byte list (for the
  chunked reader) or a `String` (for whole-file paths); `JSON.parse` is the
  executable `jsonParse` below; the ambient clock (`new Date()`) and epoch
  conversion (`new Date(n * 1000).toISOString()`) are passed in as
  parameters `now` / `tsToISO`; the caller-supplied schema logger is
  modelled by returning the list of issues each call emits.
* TypeScript exceptions never escape the modelled record-level code, so the
  embedded functions are total; file-level failures are `Except String`.
  Member access on `null` (which raises `TypeError` in JS) is modelled
  explicitly where the sources can reach it.
-/

namespace AgentWatch

/-- Decimal number as written in a JSON literal: value `m * 10 ^ e`.
`1.5` parses to `⟨15, -1⟩`, `3` to `⟨3, 0⟩`, `1e3` to `⟨1, 3⟩`. -/
structure JsNum where
  m : Int
  e : Int
deriving DecidableEq

/-- JSON value as produced by `JSON.parse`.  Object fields keep their
written order and may repeat; lookup takes the last occurrence, as
JavaScript object literal evaluation does. -/
inductive Json where
  | null
  | bool (b : Bool)
  | num (n : JsNum)
  | str (s : String)
  | arr (elems : List Json)
  | obj (fields : List (String × Json))

namespace Json

mutual

/-- Structural boolean comparison; the `DecidableEq` instance below rests
on it. -/
def jsonBeq (a b : Json) : Bool :=
  match a, b with
  | obj xs, obj ys => jsonBeqFields xs ys
  | arr xs, arr ys => jsonBeqElems xs ys
  | str x, str y => x == y
  | num x, num y => x == y
  | bool x, bool y => x == y
  | null, null => true
  | _, _ => false

def jsonBeqElems (as bs : List Json) : Bool :=
  match as, bs with
  | x :: xs, y :: ys => jsonBeq x y && jsonBeqElems xs ys
  | [], [] => true
  | _, _ => false

def jsonBeqFields (as bs : List (String × Json)) : Bool :=
  match as, bs with
  | (k, x) :: xs, (l, y) :: ys => k == l && jsonBeq x y && jsonBeqFields xs ys
  | [], [] => true
  | _, _ => false

end

mutual

theorem jsonBeq_iff : ∀ a b : Json, jsonBeq a b = true ↔ a = b
  | obj xs, b => by
    cases b <;> simp only [jsonBeq] <;> simp
    exact jsonBeqFields_iff xs _
  | arr xs, b => by
    cases b <;> simp only [jsonBeq] <;> simp
    exact jsonBeqElems_iff xs _
  | str x, b => by cases b <;> simp [jsonBeq]
  | num x, b => by cases b <;> simp [jsonBeq]
  | bool x, b => by cases b <;> simp [jsonBeq]
  | null, b => by cases b <;> simp [jsonBeq]

theorem jsonBeqElems_iff : ∀ as bs : List Json, jsonBeqElems as bs = true ↔ as = bs
  | x :: xs, y :: ys => by
    simp [jsonBeqElems, jsonBeq_iff x y, jsonBeqElems_iff xs ys]
  | x :: xs, [] => by simp [jsonBeqElems]
  | [], y :: ys => by simp [jsonBeqElems]
  | [], [] => by simp [jsonBeqElems]

theorem jsonBeqFields_iff :
    ∀ as bs : List (String × Json), jsonBeqFields as bs = true ↔ as = bs
  | (k, x) :: xs, (l, y) :: ys => by
    simp [jsonBeqFields, jsonBeq_iff x y, jsonBeqFields_iff xs ys, and_assoc]
  | (k, x) :: xs, [] => by simp [jsonBeqFields]
  | [], (l, y) :: ys => by simp [jsonBeqFields]
  | [], [] => by simp [jsonBeqFields]

end

instance : DecidableEq Json := fun a b =>
  decidable_of_iff (Json.jsonBeq a b = true) (Json.jsonBeq_iff a b)

/-- Lookup of the last occurrence of a field, matching the value JavaScript
keeps when an object literal repeats a key. -/
def lookupLast : List (String × Json) → String → Option Json
  | [], _ => none
  | (k, v) :: rest, key =>
    match lookupLast rest key with
    | some r => some r
    | none => if k = key then some v else none

end Json

/-- Property access `v.key` on a JSON value: a field of an object, else
`undefined` (`none`).  Access on `Json.null` raises in JS and is handled
explicitly at each call site that can reach it. -/
def jget : Json → String → Option Json
  | .obj fields, key => Json.lookupLast fields key
  | _, _ => none

/-- Optional chaining `v?.key` for a possibly-`undefined` receiver. -/
def jgetOpt (v : Option Json) (key : String) : Option Json :=
  match v with
  | some (.obj fields) => Json.lookupLast fields key
  | _ => none

/-- JavaScript truthiness of a possibly-`undefined` value.  `NaN` does not
arise in the embedding. -/
def truthy : Option Json → Bool
  | none => false
  | some .null => false
  | some (.bool b) => b
  | some (.num n) => n.m ≠ 0
  | some (.str s) => s ≠ ""
  | some (.arr _) => true
  | some (.obj _) => true

/-- Nullish coalescing `a ?? b`. -/
def nullish (a b : Option Json) : Option Json :=
  match a with
  | none => b
  | some .null => b
  | some v => some v

/-- String value, or `none` when the value is `undefined` or not a string.
Used where the sources both type-assert `as string` and then only consume
the value when it is an actual string. -/
def asStr : Option Json → Option String
  | some (.str s) => some s
  | _ => none

end AgentWatch

namespace AgentWatch

/-! ### JavaScript string primitives -/

/-- Characters removed by `String.prototype.trim` (ECMA-262 WhiteSpace and
LineTerminator). -/
def jsIsSpace (c : Char) : Bool :=
  c.val = 0x09 ∨ c.val = 0x0A ∨ c.val = 0x0B ∨ c.val = 0x0C ∨ c.val = 0x0D ∨
  c.val = 0x20 ∨ c.val = 0xA0 ∨ c.val = 0x1680 ∨
  (0x2000 ≤ c.val ∧ c.val ≤ 0x200A) ∨
  c.val = 0x2028 ∨ c.val = 0x2029 ∨ c.val = 0x202F ∨ c.val = 0x205F ∨
  c.val = 0x3000 ∨ c.val = 0xFEFF

/-- `String.prototype.trim` on a code-point list. -/
def jsTrim (l : List Char) : List Char :=
  ((l.dropWhile jsIsSpace).reverse.dropWhile jsIsSpace).reverse

/-- `s.split("\n")`.  Total, never returns `[]`: splitting the empty string
gives `[""]`, a trailing newline contributes a final empty segment. -/
def splitNl : List Char → List (List Char)
  | [] => [[]]
  | c :: rest =>
    if c = '\n' then [] :: splitNl rest
    else (c :: (splitNl rest).headI) :: (splitNl rest).tail

/-- Index resolution of `Array.prototype.slice`: a negative index counts
from the end, then the result is clamped into `[0, len]`. -/
def jsSliceIdx (len : Nat) (i : Int) : Nat :=
  if i < 0 then ((len : Int) + i).toNat else min i.toNat len

/-- `Array.prototype.slice(start, stop)` with JavaScript index semantics. -/
def jsSlice (l : List α) (start stop : Int) : List α :=
  let s := jsSliceIdx l.length start
  let e := jsSliceIdx l.length stop
  (l.drop s).take (e - s)

/-! ### Number rendering and coercion helpers -/

/-- Rendering of a `JsNum` for string coercion contexts.  Exact for the
integer-valued numbers the transcripts carry; shortest-round-trip float
formatting is not reproduced. -/
def renderNum (n : JsNum) : String :=
  if 0 ≤ n.e then
    toString (n.m * (10 : Int) ^ n.e.toNat)
  else
    let k := (-n.e).toNat
    let p : Int := (10 : Int) ^ k
    if n.m % p = 0 then
      toString (n.m / p)
    else
      let a := n.m.natAbs
      let sign := if n.m < 0 then "-" else ""
      let digits := Nat.toDigits 10 a
      let digits := (List.replicate (k + 1 - digits.length) '0') ++ digits
      let intPart := digits.take (digits.length - k)
      let fracPart := (digits.drop (digits.length - k)).reverse.dropWhile
        (· = '0') |>.reverse
      sign ++ String.mk intPart ++ "." ++ String.mk fracPart

mutual

/-- JavaScript ToString coercion, as used by template literals and by the
string branch of `+`. -/
def jsToString : Json → String
  | .null => "null"
  | .bool b => if b then "true" else "false"
  | .num n => renderNum n
  | .str s => s
  | .arr elems => jsArrToString elems
  | .obj _ => "[object Object]"

/-- `Array.prototype.toString`: elements joined with commas, `null` (and
holes) rendering as the empty string. -/
def jsArrToString : List Json → String
  | [] => ""
  | [x] => jsElemToString x
  | x :: rest => jsElemToString x ++ "," ++ jsArrToString rest

def jsElemToString : Json → String
  | .null => ""
  | v => jsToString v

end

/-- Exact decimal addition of two JSON numbers (float64 rounding of the
huge values it cannot represent is not modelled; the token counts and epoch
values that reach this operation are small integers). -/
def jsNumAdd (a b : JsNum) : JsNum :=
  if a.e ≤ b.e then ⟨a.m + b.m * (10 : Int) ^ (b.e - a.e).toNat, a.e⟩
  else ⟨b.m + a.m * (10 : Int) ^ (a.e - b.e).toNat, b.e⟩

/-- Numeric coercion of the primitives `+` can meet once the string cases
are dispatched. -/
def jsToNum : Json → JsNum
  | .num n => n
  | .bool b => if b then ⟨1, 0⟩ else ⟨0, 0⟩
  | _ => ⟨0, 0⟩

/-- JavaScript binary `+`: string concatenation when either operand
converts to a string primitive (strings, arrays, plain objects), numeric
addition otherwise. -/
def jsAdd (a b : Json) : Json :=
  match a, b with
  | .str _, _ | _, .str _ | .arr _, _ | _, .arr _ | .obj _, _ | _, .obj _ =>
    .str (jsToString a ++ jsToString b)
  | _, _ => .num (jsNumAdd (jsToNum a) (jsToNum b))

/-! ### JSON.stringify (used by the Gemini tool-result text branch) -/

/-- Escaping of one character inside a serialized JSON string. -/
def jsonEscapeChar (c : Char) : String :=
  if c = '"' then "\\\""
  else if c = '\\' then "\\\\"
  else if c = '\n' then "\\n"
  else if c = '\t' then "\\t"
  else if c = '\r' then "\\r"
  else if c.val = 0x08 then "\\b"
  else if c.val = 0x0C then "\\f"
  else if c.val < 0x20 then
    "\\u00" ++ String.mk [Nat.digitChar (c.val.toNat / 16),
      Nat.digitChar (c.val.toNat % 16)]
  else String.mk [c]

def jsonEscape (s : String) : String :=
  "\"" ++ String.join (s.toList.map jsonEscapeChar) ++ "\""

mutual

/-- `JSON.stringify` without spacing. -/
def jsonStringify : Json → String
  | .null => "null"
  | .bool b => if b then "true" else "false"
  | .num n => renderNum n
  | .str s => jsonEscape s
  | .arr elems => "[" ++ jsonStringifyElems elems ++ "]"
  | .obj fields => "\x7b" ++ jsonStringifyFields fields ++ "\x7d"

def jsonStringifyElems : List Json → String
  | [] => ""
  | [x] => jsonStringify x
  | x :: rest => jsonStringify x ++ "," ++ jsonStringifyElems rest

def jsonStringifyFields : List (String × Json) → String
  | [] => ""
  | [(k, v)] => jsonEscape k ++ ":" ++ jsonStringify v
  | (k, v) :: rest =>
    jsonEscape k ++ ":" ++ jsonStringify v ++ "," ++ jsonStringifyFields rest

end

end AgentWatch

namespace AgentWatch

/-! ### JSON.parse -/

/-- JSON insignificant whitespace (RFC 8259: space, tab, LF, CR). -/
def skipWs : List Char → List Char
  | c :: cs =>
    if c = ' ' ∨ c = '\t' ∨ c = '\n' ∨ c = '\r' then skipWs cs else c :: cs
  | [] => []

def isDigit (c : Char) : Bool := '0' ≤ c ∧ c ≤ '9'

/-- Longest digit prefix and the remainder. -/
def takeDigits (l : List Char) : List Char × List Char :=
  (l.takeWhile isDigit, l.dropWhile isDigit)

def digitsVal (ds : List Char) : Int :=
  ds.foldl (fun acc c => acc * 10 + ((c.val.toNat - '0'.val.toNat : Nat) : Int)) 0

/-- JSON number literal: optional minus, integer part without a leading
zero, optional fraction, optional exponent. -/
def parseNumber (s : List Char) : Option (JsNum × List Char) :=
  let (neg, s1) := match s with
    | '-' :: t => (true, t)
    | _ => (false, s)
  match takeDigits s1 with
  | ([], _) => none
  | (ds, rest) =>
    if 1 < ds.length ∧ ds.headI = '0' then none
    else
      let signed : Int → Int := fun v => if neg then -v else v
      let intVal := digitsVal ds
      let step2 : Option (Int × Int × List Char) :=
        match rest with
        | '.' :: t =>
          match takeDigits t with
          | ([], _) => none
          | (fs, rest2) =>
            some (intVal * (10 : Int) ^ fs.length + digitsVal fs,
              -(fs.length : Int), rest2)
        | _ => some (intVal, 0, rest)
      match step2 with
      | none => none
      | some (m, e, rest2) =>
        match rest2 with
        | 'e' :: t | 'E' :: t =>
          let (expNeg, t1) := match t with
            | '-' :: u => (true, u)
            | '+' :: u => (false, u)
            | _ => (false, t)
          match takeDigits t1 with
          | ([], _) => none
          | (es, rest3) =>
            let ev := if expNeg then -digitsVal es else digitsVal es
            some (⟨signed m, e + ev⟩, rest3)
        | _ => some (⟨signed m, e⟩, rest2)

def hexDigitVal (c : Char) : Option Nat :=
  if '0' ≤ c ∧ c ≤ '9' then some (c.val.toNat - '0'.val.toNat)
  else if 'a' ≤ c ∧ c ≤ 'f' then some (c.val.toNat - 'a'.val.toNat + 10)
  else if 'A' ≤ c ∧ c ≤ 'F' then some (c.val.toNat - 'A'.val.toNat + 10)
  else none

/-- Body of a JSON string after its opening quote: characters up to the
closing quote, with the standard escapes.  A `\u` escape outside the scalar
range maps to NUL (JS would keep the UTF-16 unit; no transcript uses lone
surrogates). -/
def parseStrChars : List Char → Option (List Char × List Char)
  | [] => none
  | '"' :: rest => some ([], rest)
  | '\\' :: rest =>
    match rest with
    | 'u' :: h1 :: h2 :: h3 :: h4 :: rest2 =>
      match hexDigitVal h1, hexDigitVal h2, hexDigitVal h3, hexDigitVal h4 with
      | some a, some b, some c, some d =>
        let code := ((a * 16 + b) * 16 + c) * 16 + d
        (parseStrChars rest2).map fun (cs, r) => (Char.ofNat code :: cs, r)
      | _, _, _, _ => none
    | e :: rest2 =>
      let c? : Option Char :=
        if e = '"' then some '"'
        else if e = '\\' then some '\\'
        else if e = '/' then some '/'
        else if e = 'b' then some '\x08'
        else if e = 'f' then some '\x0c'
        else if e = 'n' then some '\n'
        else if e = 'r' then some '\r'
        else if e = 't' then some '\t'
        else none
      match c? with
      | some c => (parseStrChars rest2).map fun (cs, r) => (c :: cs, r)
      | none => none
    | [] => none
  | c :: rest =>
    if c.val < 0x20 then none
    else (parseStrChars rest).map fun (cs, r) => (c :: cs, r)

mutual

/-- One JSON value starting at the head of the input (leading whitespace
already skipped), returning the remainder. -/
def parseValue : Nat → List Char → Option (Json × List Char)
  | 0, _ => none
  | fuel + 1, s =>
    match s with
    | 'n' :: 'u' :: 'l' :: 'l' :: rest => some (.null, rest)
    | 't' :: 'r' :: 'u' :: 'e' :: rest => some (.bool true, rest)
    | 'f' :: 'a' :: 'l' :: 's' :: 'e' :: rest => some (.bool false, rest)
    | '"' :: rest =>
      (parseStrChars rest).map fun (cs, r) => (.str (String.mk cs), r)
    | '[' :: rest =>
      match skipWs rest with
      | ']' :: r2 => some (.arr [], r2)
      | r1 => (parseElems fuel r1).map fun (es, r) => (.arr es, r)
    | '\x7b' :: rest =>
      match skipWs rest with
      | '\x7d' :: r2 => some (.obj [], r2)
      | r1 => (parseFields fuel r1).map fun (fs, r) => (.obj fs, r)
    | c :: _ =>
      if c = '-' ∨ isDigit c then
        (parseNumber s).map fun (n, r) => (.num n, r)
      else none
    | [] => none

/-- Comma-separated array elements up to the closing bracket. -/
def parseElems : Nat → List Char → Option (List Json × List Char)
  | 0, _ => none
  | fuel + 1, s =>
    match parseValue fuel s with
    | none => none
    | some (v, r) =>
      match skipWs r with
      | ',' :: r2 =>
        (parseElems fuel (skipWs r2)).map fun (vs, r3) => (v :: vs, r3)
      | ']' :: r2 => some ([v], r2)
      | _ => none

/-- Comma-separated object members up to the closing brace. -/
def parseFields : Nat → List Char → Option (List (String × Json) × List Char)
  | 0, _ => none
  | fuel + 1, s =>
    match s with
    | '"' :: r =>
      match parseStrChars r with
      | none => none
      | some (k, r1) =>
        match skipWs r1 with
        | ':' :: r2 =>
          match parseValue fuel (skipWs r2) with
          | none => none
          | some (v, r3) =>
            match skipWs r3 with
            | ',' :: r4 =>
              (parseFields fuel (skipWs r4)).map
                fun (fs, r5) => ((String.mk k, v) :: fs, r5)
            | '\x7d' :: r4 => some ([(String.mk k, v)], r4)
            | _ => none
        | _ => none
    | _ => none

end

/-- `JSON.parse`: one complete value with only whitespace around it. -/
def jsonParse (s : String) : Option Json :=
  let t := s.toList
  match parseValue (t.length + 1) (skipWs t) with
  | some (v, rest) => if skipWs rest = [] then some v else none
  | none => none

end AgentWatch

namespace AgentWatch

/-! ### Chunked JSONL reading (`readJsonlLines` in `adapters/shared.ts`)

The file is a byte list; `handle.read` delivers successive `chunkSize`-byte
chunks, each decoded independently by `buffer.toString("utf-8", ...)`,
which is the WHATWG lossy UTF-8 decode (`utf8DecodeLossy`). -/

def isCont (b : Nat) : Bool := 0x80 ≤ b ∧ b ≤ 0xBF

/-- Permitted range of the first continuation byte, which depends on the
lead byte (excluding overlong forms, surrogates and values above U+10FFFF). -/
def cont1Ok (lead b : Nat) : Bool :=
  if lead = 0xE0 then 0xA0 ≤ b ∧ b ≤ 0xBF
  else if lead = 0xED then 0x80 ≤ b ∧ b ≤ 0x9F
  else if lead = 0xF0 then 0x90 ≤ b ∧ b ≤ 0xBF
  else if lead = 0xF4 then 0x80 ≤ b ∧ b ≤ 0x8F
  else isCont b

def replacementChar : Char := '�'

/-- One decoding step of WHATWG UTF-8: given the first byte and the
remaining bytes, the decoded character (U+FFFD for a maximal invalid or
truncated subpart) and how many of the remaining bytes it consumed. -/
def utf8Step (b : Nat) (rest : List Nat) : Char × Nat :=
  if b < 0x80 then (Char.ofNat b, 0)
  else if 0xC2 ≤ b ∧ b ≤ 0xDF then
    match rest with
    | c1 :: _ =>
      if isCont c1 then (Char.ofNat ((b - 0xC0) * 0x40 + (c1 - 0x80)), 1)
      else (replacementChar, 0)
    | [] => (replacementChar, 0)
  else if 0xE0 ≤ b ∧ b ≤ 0xEF then
    match rest with
    | c1 :: rest1 =>
      if cont1Ok b c1 then
        match rest1 with
        | c2 :: _ =>
          if isCont c2 then
            (Char.ofNat (((b - 0xE0) * 0x40 + (c1 - 0x80)) * 0x40 + (c2 - 0x80)), 2)
          else (replacementChar, 1)
        | [] => (replacementChar, 1)
      else (replacementChar, 0)
    | [] => (replacementChar, 0)
  else if 0xF0 ≤ b ∧ b ≤ 0xF4 then
    match rest with
    | c1 :: rest1 =>
      if cont1Ok b c1 then
        match rest1 with
        | c2 :: rest2 =>
          if isCont c2 then
            match rest2 with
            | c3 :: _ =>
              if isCont c3 then
                (Char.ofNat ((((b - 0xF0) * 0x40 + (c1 - 0x80)) * 0x40
                  + (c2 - 0x80)) * 0x40 + (c3 - 0x80)), 3)
              else (replacementChar, 2)
            | [] => (replacementChar, 2)
          else (replacementChar, 1)
        | [] => (replacementChar, 1)
      else (replacementChar, 0)
    | [] => (replacementChar, 0)
  else (replacementChar, 0)

/-- Fuelled decoding loop; every step consumes at least one byte, so fuel
equal to the byte count never runs out. -/
def utf8DecodeAux : Nat → List Nat → List Char
  | 0, _ => []
  | _, [] => []
  | fuel + 1, b :: rest =>
    let (c, k) := utf8Step b rest
    c :: utf8DecodeAux fuel (rest.drop k)

/-- WHATWG lossy UTF-8 decoding, as performed by `Buffer.toString("utf-8")`
on each chunk: every maximal invalid or truncated subpart becomes one
U+FFFD.  In particular a multi-byte character cut off at the end of a
buffer decodes to a replacement character. -/
def utf8DecodeLossy (l : List Nat) : List Char := utf8DecodeAux l.length l

/-- Fuelled chunking loop; each chunk consumes at least one element, so
fuel equal to the list length never runs out. -/
def chunkListAux (size : Nat) : Nat → List α → List (List α)
  | 0, _ => []
  | _, [] => []
  | fuel + 1, x :: xs =>
    if size = 0 then []
    else (x :: xs).take size :: chunkListAux size fuel ((x :: xs).drop size)

/-- Successive `handle.read` results: `size`-byte chunks until the file is
exhausted.  A read of zero bytes ends the loop, so `size = 0` reads
nothing, as in the source. -/
def chunkList (size : Nat) (l : List α) : List (List α) :=
  chunkListAux size l.length l

/-- Per-segment behavior of the reader's inner loop: trim, skip blanks,
report the trimmed text.  Indices are positions in the returned list — the
reader's `lineIndex` and `total` counters both advance exactly on emission. -/
def emitSegs (segs : List (List Char)) : List String :=
  segs.filterMap fun seg =>
    let t := jsTrim seg
    if t = [] then none else some (String.mk t)

/-- Main loop of `readJsonlLines`: each decoded chunk is appended to the
leftover, split on newlines, the last segment withheld (`lines.pop()`), the
rest trimmed and emitted when non-blank; at end of file the final leftover
is one more candidate line. -/
def readChunksCore (leftover : List Char) : List (List Char) → List String
  | [] =>
    let t := jsTrim leftover
    if t = [] then [] else [String.mk t]
  | c :: cs =>
    let parts := splitNl (leftover ++ c)
    emitSegs parts.dropLast ++ readChunksCore (parts.getLast?.getD []) cs

/-- `readJsonlLines` on a byte-list file: the sequence of `(line, index)`
callback invocations is the returned list with its positions, and the
returned total is its length. -/
def readJsonlLines (bytes : List Nat) (chunkSize : Nat) : List String × Nat :=
  let emitted := readChunksCore [] ((chunkList chunkSize bytes).map utf8DecodeLossy)
  (emitted, emitted.length)

/-- Specification-side reading: split the whole decoded content on
newlines, trim each segment, drop blanks. -/
def splitTrimNonblank (content : List Char) : List String :=
  emitSegs (splitNl content)

/-- Whole-file reference result for a byte-list file. -/
def jsonlSpecLines (bytes : List Nat) : List String :=
  splitTrimNonblank (utf8DecodeLossy bytes)

end AgentWatch

namespace AgentWatch

/-! ### Lemmas: chunked reading refines whole-file splitting -/

theorem splitNl_ne_nil (l : List Char) : splitNl l ≠ [] := by
  cases l with
  | nil => simp [splitNl]
  | cons c rest => by_cases h : c = '\n' <;> simp [splitNl, h]

theorem splitNl_no_nl_getLast : ∀ l : List Char, '\n' ∉ (splitNl l).getLast?.getD [] := by
  intro l
  induction l with
  | nil => simp [splitNl]
  | cons c rest ih =>
    obtain ⟨y, ys, hS⟩ := List.exists_cons_of_ne_nil (splitNl_ne_nil rest)
    by_cases h : c = '\n'
    · rw [hS] at ih
      simpa [splitNl, h, hS, List.getLast?_cons_cons] using ih
    · cases ys with
      | nil =>
        have hy : '\n' ∉ y := by simpa [hS] using ih
        have hc : ¬('\n' = c) := fun hc => h hc.symm
        simp [splitNl, h, hS, List.headI, hc, hy]
      | cons z zs =>
        rw [hS] at ih
        simpa [splitNl, h, hS, List.getLast?_cons_cons] using ih

theorem splitNl_eq_single (l : List Char) (h : '\n' ∉ l) : splitNl l = [l] := by
  induction l with
  | nil => simp [splitNl]
  | cons c rest ih =>
    have hc : c ≠ '\n' := fun hc => h (hc ▸ List.mem_cons_self c rest)
    have hrest : '\n' ∉ rest := fun hm => h (List.mem_cons_of_mem c hm)
    simp [splitNl, hc, ih hrest]

theorem splitNl_append (a b : List Char) :
    splitNl (a ++ b) =
      (splitNl a).dropLast ++ splitNl ((splitNl a).getLast?.getD [] ++ b) := by
  induction a with
  | nil => simp [splitNl]
  | cons c rest ih =>
    obtain ⟨y, ys, hS⟩ := List.exists_cons_of_ne_nil (splitNl_ne_nil rest)
    by_cases h : c = '\n'
    · cases ys with
      | nil => simp [splitNl, h, ih, hS]
      | cons z zs => simp [splitNl, h, ih, hS, List.getLast?_cons_cons]
    · cases ys with
      | nil =>
        have hb := splitNl_ne_nil (y ++ b)
        obtain ⟨w, ws, hW⟩ := List.exists_cons_of_ne_nil hb
        simp [splitNl, h, ih, hS, hW]
      | cons z zs =>
        simp [splitNl, h, ih, hS, List.getLast?_cons_cons]

theorem emitSegs_append (a b : List (List Char)) :
    emitSegs (a ++ b) = emitSegs a ++ emitSegs b := by
  simp [emitSegs, List.filterMap_append]

theorem readChunksCore_eq (cs : List (List Char)) :
    ∀ leftover : List Char, '\n' ∉ leftover →
      readChunksCore leftover cs = emitSegs (splitNl (leftover ++ cs.flatten)) := by
  induction cs with
  | nil =>
    intro leftover h
    simp only [readChunksCore, List.flatten_nil, List.append_nil,
      splitNl_eq_single leftover h, emitSegs, List.filterMap]
    by_cases ht : jsTrim leftover = [] <;> simp [ht]
  | cons c cs ih =>
    intro leftover h
    rw [readChunksCore]
    rw [ih _ (splitNl_no_nl_getLast (leftover ++ c))]
    rw [List.flatten_cons, ← List.append_assoc, splitNl_append (leftover ++ c),
      emitSegs_append]

theorem chunkListAux_flatten (n : Nat) (hn : 0 < n) :
    ∀ (fuel : Nat) (l : List α), l.length ≤ fuel →
      (chunkListAux n fuel l).flatten = l := by
  intro fuel
  induction fuel with
  | zero =>
    intro l hl
    rw [Nat.le_zero, List.length_eq_zero] at hl
    simp [hl, chunkListAux]
  | succ f ih =>
    intro l hl
    cases l with
    | nil => simp [chunkListAux]
    | cons x xs =>
      rw [chunkListAux, if_neg (Nat.pos_iff_ne_zero.mp hn), List.flatten_cons,
        ih ((x :: xs).drop n) ?_]
      · exact List.take_append_drop n (x :: xs)
      · simp at hl ⊢; omega

theorem chunkList_flatten (n : Nat) (hn : 0 < n) (l : List α) :
    (chunkList n l).flatten = l :=
  chunkListAux_flatten n hn l.length l le_rfl

theorem utf8DecodeAux_ascii_append (xs : List Nat) :
    ∀ (fuel : Nat) (ys : List Nat), (xs ++ ys).length ≤ fuel →
      (∀ b ∈ xs, b < 0x80) →
      utf8DecodeAux fuel (xs ++ ys) =
        xs.map Char.ofNat ++ utf8DecodeAux (fuel - xs.length) ys := by
  induction xs with
  | nil => intro fuel ys _ _; simp
  | cons b rest ih =>
    intro fuel ys hfuel h
    have hb : b < 0x80 := h b (by simp)
    cases fuel with
    | zero => simp at hfuel
    | succ f =>
      rw [List.cons_append, utf8DecodeAux]
      simp only [utf8Step, if_pos hb, List.drop_zero, List.map_cons,
        List.cons_append, List.length_cons]
      rw [ih f ys (by simp at hfuel ⊢; omega)
        (fun b hb => h b (List.mem_cons_of_mem _ hb))]
      have hsub : f + 1 - (rest.length + 1) = f - rest.length := by omega
      rw [hsub]

theorem utf8DecodeLossy_ascii_append (xs ys : List Nat) (h : ∀ b ∈ xs, b < 0x80) :
    utf8DecodeLossy (xs ++ ys) = xs.map Char.ofNat ++ utf8DecodeLossy ys := by
  rw [utf8DecodeLossy, utf8DecodeAux_ascii_append xs (xs ++ ys).length ys le_rfl h,
    utf8DecodeLossy]
  congr 2
  simp

theorem utf8DecodeLossy_ascii (xs : List Nat) (h : ∀ b ∈ xs, b < 0x80) :
    utf8DecodeLossy xs = xs.map Char.ofNat := by
  have := utf8DecodeLossy_ascii_append xs [] h
  simpa [utf8DecodeLossy, utf8DecodeAux] using this

theorem flatten_map_decode (chunks : List (List Nat))
    (h : ∀ b ∈ chunks.flatten, b < 0x80) :
    (chunks.map utf8DecodeLossy).flatten = utf8DecodeLossy chunks.flatten := by
  induction chunks with
  | nil => simp [utf8DecodeLossy, utf8DecodeAux]
  | cons c cs ih =>
    rw [List.map_cons, List.flatten_cons, List.flatten_cons,
      utf8DecodeLossy_ascii_append c cs.flatten
        (fun b hb => h b (by simp [List.flatten_cons, hb])),
      utf8DecodeLossy_ascii c (fun b hb => h b (by simp [List.flatten_cons, hb])),
      ih (fun b hb => h b (by simp [List.flatten_cons, hb]))]

end AgentWatch

namespace AgentWatch

/-! ### Unified data model (`types.ts`) -/

/-- One diagnostic sent to the schema logger.  `description` keeps the
stable prefix of the source message; the host exception text appended in
`catch` blocks is not modelled. -/
structure SchemaIssue where
  agent : String
  transcriptPath : String
  entryIndex : Option Int := none
  issueType : String
  description : String
  rawEntry : Option Json := none
deriving DecidableEq

structure TokenUsage where
  input : Option Json := none
  output : Option Json := none
  cached : Option Json := none
  total : Option Json := none
deriving DecidableEq

/-- Normalized record.  Fields the TypeScript leaves `undefined` are
`none`; `raw` is `_raw`.  Fields hold the raw JSON values the sources
copy out of the record (the `as string`/`as number` assertions in the
sources do not convert at runtime). -/
structure UnifiedEntry where
  id : Json
  timestamp : Json
  type : String
  agent : String
  text : Option Json := none
  content : Option Json := none
  toolName : Option Json := none
  toolInput : Option Json := none
  toolCallId : Option Json := none
  model : Option Json := none
  tokens : Option TokenUsage := none
  parentId : Option Json := none
  sessionId : Option Json := none
  isSidechain : Option Json := none
  subagentId : Option Json := none
  raw : Option Json := none
deriving DecidableEq

/-- `typeof block === "object" && block !== null`. -/
def isObjLike : Json → Bool
  | .obj _ => true
  | .arr _ => true
  | _ => false

/-- `x || undefined`. -/
def truthyOrUndef (v : Option Json) : Option Json :=
  if truthy v then v else none

/-- `x ?? 0` for the token arithmetic. -/
def orZero (v : Option Json) : Json :=
  match nullish v (some (.num ⟨0, 0⟩)) with
  | some x => x
  | none => .num ⟨0, 0⟩

/-- Template-literal interpolation of a possibly-`undefined` value. -/
def jsTemplate : Option Json → String
  | none => "undefined"
  | some v => jsToString v

/-- `extractTextContent` from `adapters/shared.ts`: string content is
returned as is; an array contributes, per object block whose `type` has a
rule, the string under the rule's key; non-empty pieces joined by a blank
line. -/
def extractTextContent (content : Option Json) (rules : List (String × String)) : String :=
  match content with
  | some (.str s) => s
  | some (.arr blocks) =>
    let texts := (blocks.filter isObjLike).map fun block =>
      match asStr (jget block "type") with
      | none => ""
      | some t =>
        match rules.find? (fun r => r.1 = t) with
        | none => ""
        | some r =>
          match asStr (jget block r.2) with
          | some v => v
          | none => ""
    String.intercalate "\n\n" (texts.filter (· ≠ ""))
  | _ => ""

/-- Issue a `catch` block logs for an unparseable line. -/
def parseErrorIssue (agent line : String) (index : Int) (path : String) : SchemaIssue :=
  { agent := agent, transcriptPath := path, entryIndex := some index,
    issueType := "parse_error", description := "Failed to parse JSONL line",
    rawEntry := some (.str line) }

/-- `content.split("\n").filter((line) => line.trim())`: raw segments whose
trim is non-empty (the small-file paths keep the untrimmed line). -/
def filterTrimLines (content : String) : List String :=
  (splitNl content.toList).filterMap fun seg =>
    if jsTrim seg = [] then none else some (String.mk seg)

/-- Issue logged when no usable timestamp was found. -/
def missingTsIssue (agent : String) (obj : Json) (index : Int) (path : String) : SchemaIssue :=
  { agent := agent, transcriptPath := path, entryIndex := some index,
    issueType := "missing_required_field", description := "Entry missing timestamp",
    rawEntry := some obj }

/-- Shared shape of the JSONL small-file pagination path (`parseClaudeEntries`
and `parseCodexEntries` differ only in the record parser): whole content
split, blanks dropped, `slice(offset, offset + limit)` window, entries
parsed at index `offset + i`, with `_raw` attached on request.  Returns
`(entries, total, issues)`. -/
def windowedSmall (parse : String → Int → Option UnifiedEntry × List SchemaIssue)
    (content : String) (offset limit : Int) (includeRaw : Bool) :
    List UnifiedEntry × Nat × List SchemaIssue :=
  let lines := filterTrimLines content
  let total := lines.length
  let sliced := jsSlice lines offset (offset + limit)
  let entries := sliced.enum.filterMap fun p =>
    match (parse p.2 (offset + (p.1 : Int))).1 with
    | some e => some (if includeRaw then { e with raw := jsonParse p.2 } else e)
    | none => none
  let issues := sliced.enum.flatMap fun p => (parse p.2 (offset + (p.1 : Int))).2
  (entries, total, issues)

/-- Shared shape of the JSONL large-file pagination path: one pass collects
the trimmed non-blank lines whose running index falls in
`[offset, offset + limit)`, then parses them at index `offset + i`. -/
def windowedLarge (parse : String → Int → Option UnifiedEntry × List SchemaIssue)
    (content : String) (offset limit : Int) (includeRaw : Bool) :
    List UnifiedEntry × Nat × List SchemaIssue :=
  let allLines := splitTrimNonblank content.toList
  let total := allLines.length
  let window := (allLines.enum.filter fun p =>
    offset ≤ (p.1 : Int) ∧ (p.1 : Int) < offset + limit).map (·.2)
  let entries := window.enum.filterMap fun p =>
    match (parse p.2 (offset + (p.1 : Int))).1 with
    | some e => some (if includeRaw then { e with raw := jsonParse p.2 } else e)
    | none => none
  let issues := window.enum.flatMap fun p => (parse p.2 (offset + (p.1 : Int))).2
  (entries, total, issues)

end AgentWatch

namespace AgentWatch.Claude

/-! ### Claude adapter (`adapters/claude.ts`; the streaming variant shares
these record-level functions verbatim) -/

def TEXT_RULES : List (String × String) := [("text", "text"), ("thinking", "thinking")]

/-- Block predicate used by the `some`/`every`/`find` calls:
`typeof block === "object" && block !== null && block.type === t`. -/
def blockTypeIs (t : String) (block : Json) : Bool :=
  isObjLike block ∧ jget block "type" = some (.str t)

/-- `obj.role ?? message?.role`. -/
def roleOf (obj : Json) : Option Json :=
  nullish (jget obj "role") (jgetOpt (jget obj "message") "role")

/-- `message?.content ?? obj.content`. -/
def contentOf (obj : Json) : Option Json :=
  nullish (jgetOpt (jget obj "message") "content") (jget obj "content")

/-- `detectEntryType`. -/
def detectEntryType (obj : Json) : String :=
  let entryType := jget obj "type"
  let role := roleOf obj
  if entryType = some (.str "system") then "system"
  else if entryType = some (.str "summary") then "summary"
  else if entryType = some (.str "file-history-snapshot") then "system"
  else if entryType = some (.str "user") ∨ role = some (.str "user") then
    match contentOf obj with
    | some (.arr blocks) =>
      if blocks.any (blockTypeIs "tool_result") then "tool_result" else "user"
    | _ => "user"
  else if entryType = some (.str "assistant") ∨ role = some (.str "assistant") then
    match contentOf obj with
    | some (.arr blocks) =>
      if blocks.any (blockTypeIs "tool_use") then "tool_call"
      else if blocks.all (blockTypeIs "thinking") then "thinking"
      else "assistant"
    | _ => "assistant"
  else "unknown"

/-- `extractToolInfo`: `(toolName, toolInput, toolCallId)`. -/
def extractToolInfo (obj : Json) : Option Json × Option Json × Option Json :=
  match contentOf obj with
  | some (.arr blocks) =>
    match blocks.find? (blockTypeIs "tool_use") with
    | some toolUse => (jget toolUse "name", jget toolUse "input", jget toolUse "id")
    | none =>
      match blocks.find? (blockTypeIs "tool_result") with
      | some toolResult => (none, none, jget toolResult "tool_use_id")
      | none => (none, none, none)
  | _ => (none, none, none)

/-- `extractTokenUsage`: `cached` and `total` are sums reported as
`undefined` rather than `0` (the `|| undefined` in the source). -/
def extractTokenUsage (obj : Json) : Option TokenUsage :=
  let usage := jgetOpt (jget obj "message") "usage"
  if ¬ truthy usage then none
  else
    some {
      input := jgetOpt usage "input_tokens"
      output := jgetOpt usage "output_tokens"
      cached := truthyOrUndef (some (jsAdd
        (orZero (jgetOpt usage "cache_read_input_tokens"))
        (orZero (jgetOpt usage "cache_creation_input_tokens"))))
      total := truthyOrUndef (some (jsAdd
        (orZero (jgetOpt usage "input_tokens"))
        (orZero (jgetOpt usage "output_tokens")))) }

/-- Timestamp resolution of `parseClaudeEntry` before the current-time
default: `obj.timestamp` when truthy, else a numeric `obj.ts` converted
through `new Date(ts * 1000).toISOString()` (the host conversion is the
parameter `tsToISO`), else a string `obj.ts`. -/
def resolveTimestamp (tsToISO : JsNum → String) (obj : Json) : Option Json :=
  let ts0 := jget obj "timestamp"
  if truthy ts0 then ts0
  else
    match jget obj "ts" with
    | some (.num n) => some (.str (tsToISO n))
    | some (.str s) => some (.str s)
    | _ => none

/-- Issue logged for an unrecognized discriminator. -/
def unknownTypeIssue (obj : Json) (index : Int) (path : String) : SchemaIssue :=
  { agent := "claude", transcriptPath := path, entryIndex := some index,
    issueType := "unknown_entry_type",
    description := "Unknown entry type: " ++ jsTemplate (jget obj "type"),
    rawEntry := some obj }

/-- Body of `parseClaudeEntry` after a successful `JSON.parse`. -/
def parseClaudeEntryObj (tsToISO : JsNum → String) (now : String)
    (obj : Json) (index : Int) (path : String) :
    Option UnifiedEntry × List SchemaIssue :=
  let entryType := detectEntryType obj
  let message := jget obj "message"
  let resolved := resolveTimestamp tsToISO obj
  let timestamp := if truthy resolved then resolved.getD .null else .str now
  let tsIssues := if truthy resolved then [] else [missingTsIssue "claude" obj index path]
  let (text, content) : Option Json × Option Json :=
    if jget obj "type" = some (.str "summary") then
      (jget obj "summary", none)
    else
      let rawContent := nullish (jgetOpt message "content") (jget obj "content")
      (some (.str (extractTextContent rawContent TEXT_RULES)), rawContent)
  let (toolName, toolInput, toolCallId) := extractToolInfo obj
  let entry : UnifiedEntry := {
    id := (nullish (jget obj "uuid") (some (.str ("claude-" ++ toString index)))).getD .null
    timestamp := timestamp
    type := entryType
    agent := "claude"
    text := truthyOrUndef text
    content := content
    toolName := toolName
    toolInput := toolInput
    toolCallId := toolCallId
    model := jgetOpt message "model"
    tokens := extractTokenUsage obj
    parentId := jget obj "parentUuid"
    sessionId := jget obj "sessionId"
    isSidechain := jget obj "isSidechain"
    subagentId := jget obj "agentId" }
  let unknownIssues := if entryType = "unknown" then [unknownTypeIssue obj index path] else []
  (some entry, tsIssues ++ unknownIssues)

/-- `parseClaudeEntry`: `JSON.parse` the line, build the unified entry;
any failure (including the `TypeError` member access on a top-level
`null` raises) is caught and logged as `parse_error`. -/
def parseClaudeEntry (tsToISO : JsNum → String) (now : String)
    (line : String) (index : Int) (path : String) :
    Option UnifiedEntry × List SchemaIssue :=
  match jsonParse line with
  | none => (none, [parseErrorIssue "claude" line index path])
  | some .null => (none, [parseErrorIssue "claude" line index path])
  | some obj => parseClaudeEntryObj tsToISO now obj index path

/-- Small-file path of `parseClaudeEntries` (no clamping in the legacy
adapter; the streaming variant clamps first). -/
def parseClaudeEntriesSmall (tsToISO : JsNum → String) (now : String)
    (content : String) (offset limit : Int) (includeRaw : Bool) (path : String) :
    List UnifiedEntry × Nat × List SchemaIssue :=
  windowedSmall (fun line idx => parseClaudeEntry tsToISO now line idx path)
    content offset limit includeRaw

end AgentWatch.Claude

namespace AgentWatch.Codex

/-! ### Codex adapter (`adapters/codex.ts`) -/

def TEXT_RULES : List (String × String) := [("input_text", "text"), ("output_text", "text")]

/-- `detectEntryType` over the `{timestamp, type, payload}` envelope. -/
def detectEntryType (entryType : Option Json) (payload : Json) : String :=
  if entryType = some (.str "session_meta") then "system"
  else if entryType = some (.str "turn_context") then "system"
  else if entryType = some (.str "event_msg") then
    let eventType := jget payload "type"
    if eventType = some (.str "user_message") then "user"
    else if eventType = some (.str "agent_message") then "assistant"
    else if eventType = some (.str "agent_reasoning") then "thinking"
    else if eventType = some (.str "token_count") then "system"
    else "system"
  else if entryType = some (.str "response_item") then
    let itemType := jget payload "type"
    if itemType = some (.str "message") then
      let role := jget payload "role"
      if role = some (.str "user") then "user"
      else if role = some (.str "assistant") then "assistant"
      else "assistant"
    else if itemType = some (.str "function_call") then "tool_call"
    else if itemType = some (.str "function_call_output") then "tool_result"
    else if itemType = some (.str "custom_tool_call") then "tool_call"
    else if itemType = some (.str "custom_tool_call_output") then "tool_result"
    else if itemType = some (.str "reasoning") then "thinking"
    else if itemType = some (.str "ghost_snapshot") then "system"
    else "unknown"
  else "unknown"

/-- `extractToolInfo`: stringified `arguments` get a nested decode whose
failure falls back to the raw string. -/
def extractToolInfo (entryType : Option Json) (payload : Json) :
    Option Json × Option Json × Option Json :=
  if entryType ≠ some (.str "response_item") then (none, none, none)
  else
    let itemType := jget payload "type"
    if itemType = some (.str "function_call") then
      let input :=
        match jget payload "arguments" with
        | some (.str s) =>
          match jsonParse s with
          | some v => some v
          | none => some (.str s)
        | v => v
      (jget payload "name", input, jget payload "call_id")
    else if itemType = some (.str "function_call_output") then
      (none, none, jget payload "call_id")
    else if itemType = some (.str "custom_tool_call") then
      (jget payload "name", jget payload "input", jget payload "call_id")
    else if itemType = some (.str "custom_tool_call_output") then
      (none, none, jget payload "call_id")
    else (none, none, none)

/-- `extractTokenUsage`: only `token_count` events carry usage, read from
`payload.info.total_token_usage`. -/
def extractTokenUsage (entryType : Option Json) (payload : Json) : Option TokenUsage :=
  if entryType ≠ some (.str "event_msg") then none
  else if jget payload "type" ≠ some (.str "token_count") then none
  else
    let usage := jgetOpt (jget payload "info") "total_token_usage"
    if ¬ truthy usage then none
    else
      some {
        input := jgetOpt usage "input_tokens"
        output := jgetOpt usage "output_tokens"
        cached := jgetOpt usage "cached_input_tokens"
        total := jgetOpt usage "total_tokens" }

/-- Text/content extraction of `parseCodexEntry`.  Returns `none` when the
branch raises (a truthy non-array `payload.summary` makes `summary.map`
throw), which the caller turns into a `parse_error`. -/
def extractTextContent' (entryType : Option Json) (payload : Json) :
    Option (Option Json × Option Json) :=
  if entryType = some (.str "event_msg") then
    let pt := jget payload "type"
    if pt = some (.str "user_message") then some (jget payload "message", none)
    else if pt = some (.str "agent_message") then some (jget payload "message", none)
    else if pt = some (.str "agent_reasoning") then some (jget payload "text", none)
    else some (none, none)
  else if entryType = some (.str "response_item") then
    let itemType := jget payload "type"
    if itemType = some (.str "message") then
      some (some (.str (extractTextContent (jget payload "content") TEXT_RULES)),
        jget payload "content")
    else if itemType = some (.str "reasoning") then
      let summary := jget payload "summary"
      let text : Option (Option Json) :=
        match summary with
        | some (.arr items) =>
          some (some (.str (String.intercalate "\n" (items.map fun s =>
            jsToString ((nullish (jget s "text") (some (.str ""))).getD .null)))))
        | _ => if truthy summary then none else some none
      match text with
      | none => none
      | some t =>
        some (t, if truthy (jget payload "encrypted_content")
          then some (.str "[encrypted]") else jget payload "content")
    else if itemType = some (.str "function_call_output") ∨
        itemType = some (.str "custom_tool_call_output") then
      let po := jget payload "output"
      match po with
      | some (.str s) =>
        match jsonParse s with
        | some out => some ((asStr (jget out "output")).map Json.str, some out)
        | none => some (po, po)
      | _ => some ((asStr (jgetOpt po "output")).map Json.str, po)
    else some (none, none)
  else if entryType = some (.str "session_meta") then
    some (none, some payload)
  else some (none, none)

def unknownTypeIssue (entryType : Option Json) (payload : Json) (obj : Json)
    (index : Int) (path : String) : SchemaIssue :=
  { agent := "codex", transcriptPath := path, entryIndex := some index,
    issueType := "unknown_entry_type",
    description := "Unknown entry type: " ++ jsTemplate entryType ++ "/" ++
      jsTemplate (jget payload "type"),
    rawEntry := some obj }

/-- `parseCodexEntry`: a record without a truthy `timestamp` is dropped
(`return null`) after logging `missing_required_field`. -/
def parseCodexEntry (line : String) (index : Int) (path : String) :
    Option UnifiedEntry × List SchemaIssue :=
  match jsonParse line with
  | none => (none, [parseErrorIssue "codex" line index path])
  | some .null => (none, [parseErrorIssue "codex" line index path])
  | some obj =>
    let timestamp := jget obj "timestamp"
    let entryType := jget obj "type"
    let payload := (nullish (jget obj "payload") (some (.obj []))).getD (.obj [])
    if ¬ truthy timestamp then
      (none, [missingTsIssue "codex" obj index path])
    else
      match extractTextContent' entryType payload with
      | none => (none, [parseErrorIssue "codex" line index path])
      | some (text, content) =>
        let type := detectEntryType entryType payload
        let (toolName, toolInput, toolCallId) := extractToolInfo entryType payload
        let entry : UnifiedEntry := {
          id := .str ("codex-" ++ toString index)
          timestamp := timestamp.getD .null
          type := type
          agent := "codex"
          text := truthyOrUndef text
          content := content
          toolName := toolName
          toolInput := toolInput
          toolCallId := toolCallId
          tokens := extractTokenUsage entryType payload }
        let unknownIssues :=
          if type = "unknown" then [unknownTypeIssue entryType payload obj index path] else []
        (some entry, unknownIssues)

/-- Small-file path of `parseCodexEntries`: no offset/limit clamping — the
raw values go straight into `Array.prototype.slice`. -/
def parseCodexEntriesSmall (content : String) (offset limit : Int)
    (includeRaw : Bool) (path : String) :
    List UnifiedEntry × Nat × List SchemaIssue :=
  windowedSmall (fun line idx => parseCodexEntry line idx path)
    content offset limit includeRaw

/-- Large-file path of `parseCodexEntries`. -/
def parseCodexEntriesLarge (content : String) (offset limit : Int)
    (includeRaw : Bool) (path : String) :
    List UnifiedEntry × Nat × List SchemaIssue :=
  windowedLarge (fun line idx => parseCodexEntry line idx path)
    content offset limit includeRaw

/-- `parseCodexEntries` as called through `parseEntries`: the public
options type carries `maxFileSizeBytes`, but the Codex implementation
destructures only `offset`, `limit`, `includeRaw` and the logger, so the
cap is never consulted and the call cannot fail with a size-limit error. -/
def parseCodexEntriesCall (fileSize : Nat) (content : String)
    (offset limit : Int) (includeRaw : Bool)
    (maxFileSizeBytes : Option Nat) (path : String) :
    Except String (List UnifiedEntry × Nat × List SchemaIssue) :=
  if fileSize < 1024 * 1024 then
    .ok (parseCodexEntriesSmall content offset limit includeRaw path)
  else
    .ok (parseCodexEntriesLarge content offset limit includeRaw path)

end AgentWatch.Codex

namespace AgentWatch.Gemini

/-! ### Gemini adapter (the JSON-document format) -/

/-- `parseGeminiMessage`: one message expands into up to
`1 (message) + |thoughts| (thinking) + |toolCalls| (tool_call, plus a
tool_result when a `result` field is present)` unified entries.  `none`
models the `TypeError` raised by member access on a `null` message or
array element, which no `catch` intercepts.  Only the typed array shapes
of `thoughts`/`toolCalls` are modelled. -/
def parseGeminiMessage (now : String) (message : Json) (index : Int) :
    Option (List UnifiedEntry) :=
  if message = .null then none
  else
    let baseId := (nullish (jget message "id")
      (some (.str ("gemini-msg-" ++ toString index)))).getD .null
    let msgType := jget message "type"
    let type :=
      if msgType = some (.str "user") then "user"
      else if msgType = some (.str "gemini") then "assistant"
      else "unknown"
    let msgTs := nullish (jget message "timestamp") (some (.str now))
    let mainEntries : List UnifiedEntry :=
      if truthy (jget message "content") ∨ type ≠ "unknown" then
        [{ id := baseId
           timestamp := msgTs.getD .null
           type := type
           agent := "gemini"
           text := truthyOrUndef (jget message "content")
           model := jget message "model"
           tokens :=
             if truthy (jget message "tokens") then
               some { input := jgetOpt (jget message "tokens") "input"
                      output := jgetOpt (jget message "tokens") "output"
                      cached := jgetOpt (jget message "tokens") "cached"
                      total := jgetOpt (jget message "tokens") "total" }
             else none }]
      else []
    let thoughts := match jget message "thoughts" with
      | some (.arr ts) => ts
      | _ => []
    let toolCalls := match jget message "toolCalls" with
      | some (.arr tcs) => tcs
      | _ => []
    if thoughts.any (· = .null) ∨ toolCalls.any (· = .null) then none
    else
      let thoughtEntries : List UnifiedEntry := thoughts.enum.map fun p =>
        { id := .str (jsToString baseId ++ "-thought-" ++ toString p.1)
          timestamp := (nullish (jget p.2 "timestamp") msgTs).getD .null
          type := "thinking"
          agent := "gemini"
          text := some (.str (String.intercalate ": "
            (([jget p.2 "subject", jget p.2 "description"].filter truthy).map
              fun v => jsToString (v.getD .null)))) }
      let toolEntries : List UnifiedEntry := toolCalls.enum.flatMap fun p =>
        let tc := p.2
        let toolCallId := (nullish (jget tc "id")
          (some (.str (jsToString baseId ++ "-tool-" ++ toString p.1)))).getD .null
        let ts := (nullish (jget tc "timestamp") msgTs).getD .null
        let callEntry : UnifiedEntry :=
          { id := toolCallId
            timestamp := ts
            type := "tool_call"
            agent := "gemini"
            toolName := nullish (jget tc "name") (jget tc "displayName")
            toolInput := jget tc "args"
            toolCallId := some toolCallId }
        let resultEntries : List UnifiedEntry :=
          match jget tc "result" with
          | none => []
          | some r =>
            [{ id := .str (jsToString toolCallId ++ "-result")
               timestamp := ts
               type := "tool_result"
               agent := "gemini"
               content := some r
               text := match r with
                 | .str s => some (.str s)
                 | .arr _ => some (.str (jsonStringify r))
                 | _ => none
               toolCallId := some toolCallId }]
        callEntry :: resultEntries
      some (mainEntries ++ thoughtEntries ++ toolEntries)

def jsonDocParseErrorIssue (path : String) : SchemaIssue :=
  { agent := "gemini", transcriptPath := path,
    issueType := "parse_error", description := "Failed to parse JSON" }

/-- `session.messages ?? []` as iterated by the message loop: a non-array
value never enters the loop.  Member access on a `null` session raises and
is handled by the caller. -/
def messagesOf (session : Json) : List Json :=
  match jget session "messages" with
  | some (.arr ms) => ms
  | _ => []

/-- `parseGeminiEntries`: offset and limit are clamped to `≥ 0`; the size
cap defaults to `DEFAULT_MAX_JSON_FILE_BYTES` (50 MB) and is enforced
before the file is parsed; a JSON-document parse failure degrades to an
empty result with a logged `parse_error`. -/
def parseGeminiEntries (now : String) (fileSize : Nat) (content : String)
    (offset limit : Int) (includeRaw : Bool) (maxFileSizeBytes : Option Nat)
    (path : String) :
    Except String (List UnifiedEntry × Nat × List SchemaIssue) :=
  let safeOffset := max 0 offset
  let safeLimit := max 0 limit
  let maxBytes := maxFileSizeBytes.getD (50 * 1024 * 1024)
  if fileSize > maxBytes then
    .error ("Gemini transcript exceeds maxFileSizeBytes (" ++ toString fileSize
      ++ " > " ++ toString maxBytes ++ ").")
  else
    match jsonParse content with
    | none => .ok ([], 0, [jsonDocParseErrorIssue path])
    | some session =>
      if session = .null then .error "TypeError"
      else
      let messages := messagesOf session
      let parsed := messages.enum.map fun p => parseGeminiMessage now p.2 (p.1 : Int)
      if parsed.any (·.isNone) then .error "TypeError"
      else
        let allEntries := (parsed.map (·.getD [])).flatten
        let total := allEntries.length
        let sliced := jsSlice allEntries safeOffset (safeOffset + safeLimit)
        let sliced :=
          if includeRaw then
            match sliced with
            | [] => []
            | e :: rest => { e with raw := some session } :: rest
          else sliced
        .ok (sliced, total, [])

end AgentWatch.Gemini

namespace AgentWatch

/-! ### Stats accumulation (`adapters/shared.ts`) and the Codex summarizer -/

/-- `createStatsAccumulator()`: token counters start at the number `0`;
the frequency maps are insertion-ordered records. -/
structure StatsAcc where
  input : Json := .num ⟨0, 0⟩
  output : Json := .num ⟨0, 0⟩
  cached : Json := .num ⟨0, 0⟩
  total : Json := .num ⟨0, 0⟩
  entryTypes : List (String × Int) := []
  tools : List (String × Int) := []
  models : List (String × Int) := []
deriving DecidableEq

/-- `acc[k] = (acc[k] ?? 0) + 1` on a record: an existing key is bumped in
place, a new key appended. -/
def bump (m : List (String × Int)) (k : String) : List (String × Int) :=
  if m.any (·.1 = k) then
    m.map fun p => if p.1 = k then (p.1, p.2 + 1) else p
  else m ++ [(k, 1)]

/-- `accumulateEntryStats`. -/
def accumulateEntryStats (acc : StatsAcc) (e : UnifiedEntry) : StatsAcc :=
  let acc :=
    match e.tokens with
    | some t =>
      { acc with
        input := jsAdd acc.input (orZero t.input)
        output := jsAdd acc.output (orZero t.output)
        cached := jsAdd acc.cached (orZero t.cached)
        total := jsAdd acc.total (orZero t.total) }
    | none => acc
  let acc := { acc with entryTypes := bump acc.entryTypes e.type }
  let acc :=
    if truthy e.toolName then
      { acc with tools := bump acc.tools (jsToString (e.toolName.getD .null)) }
    else acc
  if truthy e.model then
    { acc with models := bump acc.models (jsToString (e.model.getD .null)) }
  else acc

/-- Stats portion of the `parseCodexTranscript` line loop: per line, a
failed `JSON.parse` skips the iteration; otherwise `parseCodexEntry` runs
at the running `lineIndex++` and, when it yields an entry, the entry's
stats accumulate — unconditionally, with no memory of the previous
token-count snapshot. -/
def codexStatsStep (path : String) (st : StatsAcc × Int) (line : String) :
    StatsAcc × Int :=
  match jsonParse line with
  | none => st
  | some _ =>
    match (Codex.parseCodexEntry line st.2 path).1 with
    | some e => (accumulateEntryStats st.1 e, st.2 + 1)
    | none => (st.1, st.2 + 1)

def codexTranscriptStatsLines (lines : List String) (path : String) : StatsAcc :=
  (lines.foldl (codexStatsStep path) ({}, 0)).1

/-- Stats accumulated by `parseCodexTranscript` for a file that fits in the
first 64 KiB chunk: the first 50 non-blank lines feed the accumulator. -/
def parseCodexTranscriptStats (content : String) (path : String) : StatsAcc :=
  codexTranscriptStatsLines ((filterTrimLines content).take 50) path

/-! ### In-memory schema logger (`schema-logger.ts`) -/

structure StoredIssue where
  id : String
  timestamp : String
  issue : SchemaIssue
deriving DecidableEq

structure LoggerState where
  issues : List StoredIssue
  counter : Nat
deriving DecidableEq

def loggerInit : LoggerState := ⟨[], 0⟩

/-- `log(input)`: stamp the issue with a fresh id and the current time,
push it, and evict the oldest stored issue (`issues.shift()`) once the
count exceeds `maxIssues`. -/
def loggerLog (maxIssues : Nat) (st : LoggerState) (input : SchemaIssue)
    (now : String) : LoggerState :=
  let counter := st.counter + 1
  let issue : StoredIssue := ⟨"schema-issue-" ++ toString counter, now, input⟩
  let issues := st.issues ++ [issue]
  let issues := if issues.length > maxIssues then issues.drop 1 else issues
  ⟨issues, counter⟩

/-- A fresh logger fed a sequence of `(input, observed clock)` calls. -/
def loggerRun (maxIssues : Nat) (entries : List (SchemaIssue × String)) : LoggerState :=
  entries.foldl (fun st p => loggerLog maxIssues st p.1 p.2) loggerInit

/-- Every issue the run would stamp, in order, were nothing evicted. -/
def allStored (entries : List (SchemaIssue × String)) : List StoredIssue :=
  entries.enum.map fun p => ⟨"schema-issue-" ++ toString (p.1 + 1), p.2.2, p.2.1⟩

def getIssues (st : LoggerState) : List StoredIssue := st.issues

/-- `getStats()`: total plus per-agent and per-issue-type frequency maps,
computed from the stored issues. -/
def getStats (st : LoggerState) : Nat × List (String × Int) × List (String × Int) :=
  (st.issues.length,
   st.issues.foldl (fun m i => bump m i.issue.agent) [],
   st.issues.foldl (fun m i => bump m i.issue.issueType) [])

end AgentWatch

namespace AgentWatch

/-! ### Concrete fixtures used by instance theorems -/

/-- A well-formed Claude summary record. -/
def claudeSummaryLine : String :=
  "\x7b\"type\":\"summary\",\"summary\":\"hi\",\"timestamp\":\"2024-01-01T00:00:00Z\"\x7d"

/-- One well-formed record followed by one line of garbage text. -/
def claudeMixedFile : String := claudeSummaryLine ++ "\nGARBAGE"

/-- A Claude record with no timestamp and no `ts` field. -/
def claudeNoTsLine : String := "\x7b\"type\":\"summary\",\"summary\":\"s\"\x7d"

def claudeNoTsObj : Json := .obj [("type", .str "summary"), ("summary", .str "s")]

def codexMetaLine1 : String :=
  "\x7b\"timestamp\":\"2024-01-15T10:00:00.000Z\",\"type\":\"session_meta\",\"payload\":\x7b\x7d\x7d"

def codexMetaLine2 : String :=
  "\x7b\"timestamp\":\"2024-01-15T10:00:01.000Z\",\"type\":\"session_meta\",\"payload\":\x7b\x7d\x7d"

/-- A two-record Codex transcript. -/
def codexTwoLineFile : String := codexMetaLine1 ++ "\n" ++ codexMetaLine2

/-- A Codex record with no timestamp. -/
def codexNoTsLine : String :=
  "\x7b\"type\":\"event_msg\",\"payload\":\x7b\"type\":\"user_message\",\"message\":\"hi\"\x7d\x7d"

def codexNoTsObj : Json :=
  .obj [("type", .str "event_msg"),
    ("payload", .obj [("type", .str "user_message"), ("message", .str "hi")])]

/-- A `token_count` event with a running total of 3 tokens. -/
def codexTokenCountLine : String :=
  "\x7b\"timestamp\":\"2024-01-15T10:00:04.000Z\",\"type\":\"event_msg\",\"payload\":\x7b\"type\":\"token_count\",\"info\":\x7b\"total_token_usage\":\x7b\"input_tokens\":1,\"output_tokens\":2,\"cached_input_tokens\":1,\"total_tokens\":3\x7d\x7d\x7d\x7d"

/-- Two consecutive `token_count` events carrying an identical running total. -/
def codexTokenDupFile : String := codexTokenCountLine ++ "\n" ++ codexTokenCountLine

/-- The entry `parseCodexEntry` builds from `codexTokenCountLine` at index 0. -/
def codexTokenEntry : UnifiedEntry :=
  { id := .str "codex-0"
    timestamp := .str "2024-01-15T10:00:04.000Z"
    type := "system"
    agent := "codex"
    tokens := some ⟨some (.num ⟨1, 0⟩), some (.num ⟨2, 0⟩),
      some (.num ⟨1, 0⟩), some (.num ⟨3, 0⟩)⟩ }

/-- A Gemini message carrying 2 thoughts and 1 tool call with a result, but
neither content nor a recognized `type`. -/
def geminiBareMessage : Json :=
  .obj [("thoughts", .arr [.obj [], .obj []]),
    ("toolCalls", .arr [.obj [("result", .str "r")]])]

/-- A Gemini user message carrying 2 thoughts and 1 tool call with a result. -/
def geminiRichMessage : Json :=
  .obj [("type", .str "user"), ("content", .str "hi"), ("timestamp", .str "T"),
    ("thoughts", .arr [.obj [("subject", .str "a")], .obj [("subject", .str "b")]]),
    ("toolCalls", .arr [.obj [("id", .str "t1"), ("name", .str "search"),
      ("result", .str "ok")]])]

/-- A one-message Gemini session with a timestamped message. -/
def geminiSessionFile : String :=
  "\x7b\"messages\":[\x7b\"type\":\"user\",\"content\":\"hi\",\"timestamp\":\"T\"\x7d]\x7d"

def geminiSessionObj : Json :=
  .obj [("messages", .arr [.obj [("type", .str "user"), ("content", .str "hi"),
    ("timestamp", .str "T")]])]

/-- A Claude record of user role with exactly one `tool_result` block. -/
def claudeUserToolResultObj : Json :=
  .obj [("type", .str "user"), ("content", .arr [.obj [("type", .str "tool_result")]])]

/-- A Claude assistant record whose content is a single thinking block. -/
def claudeThinkingObj : Json :=
  .obj [("type", .str "assistant"),
    ("message", .obj [("content", .arr [.obj [("type", .str "thinking")]])])]

end AgentWatch

namespace AgentWatch

/-! ### Helper lemmas about the pagination windows -/

theorem windowedSmall_limit_zero (parse : String → Int → Option UnifiedEntry × List SchemaIssue)
    (content : String) (offset : Int) (includeRaw : Bool) :
    windowedSmall parse content offset 0 includeRaw =
      ([], (filterTrimLines content).length, []) := by
  simp [windowedSmall, jsSlice]

theorem windowedSmall_offset_ge (parse : String → Int → Option UnifiedEntry × List SchemaIssue)
    (content : String) (offset limit : Int) (includeRaw : Bool)
    (h : ((filterTrimLines content).length : Int) ≤ offset) :
    windowedSmall parse content offset limit includeRaw =
      ([], (filterTrimLines content).length, []) := by
  have hs : jsSliceIdx (filterTrimLines content).length offset =
      (filterTrimLines content).length := by
    simp only [jsSliceIdx]
    rw [if_neg (by omega)]
    omega
  simp [windowedSmall, jsSlice, hs, List.drop_eq_nil_of_le]

theorem windowedSmall_total (parse : String → Int → Option UnifiedEntry × List SchemaIssue)
    (content : String) (offset limit : Int) (includeRaw : Bool) :
    (windowedSmall parse content offset limit includeRaw).2.1 =
      (filterTrimLines content).length := rfl

theorem windowedLarge_window_nil (parse : String → Int → Option UnifiedEntry × List SchemaIssue)
    (content : String) (offset limit : Int) (includeRaw : Bool)
    (h : ∀ i : Nat, i < (splitTrimNonblank content.toList).length →
      ¬(offset ≤ (i : Int) ∧ (i : Int) < offset + limit)) :
    windowedLarge parse content offset limit includeRaw =
      ([], (splitTrimNonblank content.toList).length, []) := by
  have hfilter : ((splitTrimNonblank content.toList).enum.filter fun p =>
      offset ≤ (p.1 : Int) ∧ (p.1 : Int) < offset + limit) = [] := by
    rw [List.filter_eq_nil_iff]
    intro p hp
    have hlt := List.fst_lt_of_mem_enum hp
    simpa using h p.1 hlt
  simp only [windowedLarge, hfilter]
  simp

theorem windowedLarge_limit_zero (parse : String → Int → Option UnifiedEntry × List SchemaIssue)
    (content : String) (offset : Int) (includeRaw : Bool) :
    windowedLarge parse content offset 0 includeRaw =
      ([], (splitTrimNonblank content.toList).length, []) :=
  windowedLarge_window_nil parse content offset 0 includeRaw (by intro i _; omega)

theorem windowedLarge_offset_ge (parse : String → Int → Option UnifiedEntry × List SchemaIssue)
    (content : String) (offset limit : Int) (includeRaw : Bool)
    (h : ((splitTrimNonblank content.toList).length : Int) ≤ offset) :
    windowedLarge parse content offset limit includeRaw =
      ([], (splitTrimNonblank content.toList).length, []) :=
  windowedLarge_window_nil parse content offset limit includeRaw (by intro i hi; omega)

theorem windowedLarge_total (parse : String → Int → Option UnifiedEntry × List SchemaIssue)
    (content : String) (offset limit : Int) (includeRaw : Bool) :
    (windowedLarge parse content offset limit includeRaw).2.1 =
      (splitTrimNonblank content.toList).length := rfl

/-- The raw-line filter of the small path and the trimmed-line filter of
the large path keep the same number of lines. -/
theorem filterTrimLines_length (content : String) :
    (filterTrimLines content).length = (splitTrimNonblank content.toList).length := by
  simp only [filterTrimLines, splitTrimNonblank, emitSegs]
  induction splitNl content.toList with
  | nil => simp
  | cons seg segs ih =>
    by_cases h : jsTrim seg = [] <;> simp [h, List.filterMap_cons, ih]

theorem parseGeminiEntries_clamps (now : String) (fileSize : Nat) (content : String)
    (offset limit : Int) (includeRaw : Bool) (maxFileSizeBytes : Option Nat) (path : String) :
    Gemini.parseGeminiEntries now fileSize content offset limit includeRaw maxFileSizeBytes path =
      Gemini.parseGeminiEntries now fileSize content (max 0 offset) (max 0 limit)
        includeRaw maxFileSizeBytes path := by
  have h1 : max 0 (max 0 offset) = max 0 offset := by rw [← max_assoc, max_self]
  have h2 : max 0 (max 0 limit) = max 0 limit := by rw [← max_assoc, max_self]
  simp only [Gemini.parseGeminiEntries, h1, h2]

theorem jsSlice_stop_eq_start (l : List α) (s : Int) : jsSlice l s s = [] := by
  simp [jsSlice]

theorem jsSlice_start_ge_len (l : List α) (s e : Int) (hs : (l.length : Int) ≤ s) :
    jsSlice l s e = [] := by
  have h1 : jsSliceIdx l.length s = l.length := by
    simp only [jsSliceIdx]
    rw [if_neg (by omega)]
    omega
  simp [jsSlice, h1]

theorem parseGeminiEntries_limit_zero (now : String) (fileSize : Nat) (content : String)
    (offset : Int) (includeRaw : Bool) (maxFileSizeBytes : Option Nat) (path : String)
    (entries : List UnifiedEntry) (total : Nat) (issues : List SchemaIssue)
    (h : Gemini.parseGeminiEntries now fileSize content offset 0 includeRaw
      maxFileSizeBytes path = Except.ok (entries, total, issues)) :
    entries = [] := by
  simp only [Gemini.parseGeminiEntries] at h
  split at h
  · exact absurd h (by simp)
  · split at h
    · simp only [Except.ok.injEq, Prod.mk.injEq] at h
      exact h.1.symm
    · split at h
      · exact absurd h (by simp)
      · split at h
        · exact absurd h (by simp)
        · rw [show ((0 : Int) ⊔ 0) = 0 from rfl] at h
          rw [add_zero, jsSlice_stop_eq_start] at h
          simp only [Except.ok.injEq, Prod.mk.injEq] at h
          cases hir : includeRaw <;> rw [hir] at h <;> simpa using h.1.symm

theorem parseGeminiEntries_offset_ge (now : String) (fileSize : Nat) (content : String)
    (offset limit : Int) (includeRaw : Bool) (maxFileSizeBytes : Option Nat) (path : String)
    (entries : List UnifiedEntry) (total : Nat) (issues : List SchemaIssue)
    (h : Gemini.parseGeminiEntries now fileSize content offset limit includeRaw
      maxFileSizeBytes path = Except.ok (entries, total, issues))
    (hoff : (total : Int) ≤ offset) :
    entries = [] := by
  simp only [Gemini.parseGeminiEntries] at h
  split at h
  · exact absurd h (by simp)
  · split at h
    · simp only [Except.ok.injEq, Prod.mk.injEq] at h
      exact h.1.symm
    · split at h
      · exact absurd h (by simp)
      · split at h
        · exact absurd h (by simp)
        · simp only [Except.ok.injEq, Prod.mk.injEq] at h
          obtain ⟨hes, htot, -⟩ := h
          have hmax : (0 : Int) ⊔ offset = offset := by
            rw [max_eq_right]
            omega
          rw [hmax, jsSlice_start_ge_len _ _ _ (by omega)] at hes
          cases hir : includeRaw <;> rw [hir] at hes <;> simpa using hes.symm

theorem parseGeminiEntries_total_indep (now : String) (fileSize : Nat) (content : String)
    (o1 l1 o2 l2 : Int) (ir1 ir2 : Bool) (maxFileSizeBytes : Option Nat) (path : String)
    (es1 es2 : List UnifiedEntry) (t1 t2 : Nat) (i1 i2 : List SchemaIssue)
    (h1 : Gemini.parseGeminiEntries now fileSize content o1 l1 ir1 maxFileSizeBytes path =
      Except.ok (es1, t1, i1))
    (h2 : Gemini.parseGeminiEntries now fileSize content o2 l2 ir2 maxFileSizeBytes path =
      Except.ok (es2, t2, i2)) :
    t1 = t2 ∧ i1 = i2 := by
  cases hp : jsonParse content with
  | none =>
    simp only [Gemini.parseGeminiEntries, hp] at h1 h2
    split at h1
    · exact absurd h1 (by simp)
    · rw [if_neg (by assumption)] at h2
      simp only [Except.ok.injEq, Prod.mk.injEq] at h1 h2
      exact ⟨h1.2.1.symm.trans h2.2.1, h1.2.2.symm.trans h2.2.2⟩
  | some session =>
    simp only [Gemini.parseGeminiEntries, hp] at h1 h2
    split at h1
    · exact absurd h1 (by simp)
    · rw [if_neg (by assumption)] at h2
      split at h1
      · exact absurd h1 (by simp)
      · rw [if_neg (by assumption)] at h2
        split at h1
        · exact absurd h1 (by simp)
        · rw [if_neg (by assumption)] at h2
          simp only [Except.ok.injEq, Prod.mk.injEq] at h1 h2
          exact ⟨h1.2.1.symm.trans h2.2.1, h1.2.2.symm.trans h2.2.2⟩

/-! ### Helper lemmas about clock independence -/

theorem parseClaudeEntry_now_irrel (tsToISO : JsNum → String) (now1 now2 line : String)
    (index : Int) (path : String)
    (h : ∀ obj, jsonParse line = some obj → truthy (Claude.resolveTimestamp tsToISO obj)) :
    Claude.parseClaudeEntry tsToISO now1 line index path =
      Claude.parseClaudeEntry tsToISO now2 line index path := by
  cases hp : jsonParse line with
  | none => simp [Claude.parseClaudeEntry, hp]
  | some obj =>
    cases obj with
    | null => simp [Claude.parseClaudeEntry, hp]
    | bool b => simp [Claude.parseClaudeEntry, hp, Claude.parseClaudeEntryObj, h _ hp]
    | num n => simp [Claude.parseClaudeEntry, hp, Claude.parseClaudeEntryObj, h _ hp]
    | str s => simp [Claude.parseClaudeEntry, hp, Claude.parseClaudeEntryObj, h _ hp]
    | arr es => simp [Claude.parseClaudeEntry, hp, Claude.parseClaudeEntryObj, h _ hp]
    | obj fs => simp [Claude.parseClaudeEntry, hp, Claude.parseClaudeEntryObj, h _ hp]

theorem windowedSmall_congr (parse1 parse2 : String → Int → Option UnifiedEntry × List SchemaIssue)
    (content : String) (offset limit : Int) (includeRaw : Bool)
    (h : ∀ line ∈ filterTrimLines content, ∀ idx, parse1 line idx = parse2 line idx) :
    windowedSmall parse1 content offset limit includeRaw =
      windowedSmall parse2 content offset limit includeRaw := by
  have hmem : ∀ p ∈ (jsSlice (filterTrimLines content) offset (offset + limit)).enum,
      p.2 ∈ filterTrimLines content := by
    intro p hp
    have h2 := List.snd_mem_of_mem_enum hp
    simp only [jsSlice] at h2
    exact List.mem_of_mem_drop (List.mem_of_mem_take h2)
  simp only [windowedSmall]
  rw [List.filterMap_congr (fun p hp => by rw [h p.2 (hmem p hp)]),
    List.flatMap_congr (fun p hp => by rw [h p.2 (hmem p hp)])]

theorem parseGeminiMessage_now_irrel (now1 now2 : String) (msg : Json) (index : Int)
    (h : ∃ v, jget msg "timestamp" = some v ∧ v ≠ .null) :
    Gemini.parseGeminiMessage now1 msg index = Gemini.parseGeminiMessage now2 msg index := by
  obtain ⟨v, hv, hvn⟩ := h
  have hms1 : nullish (jget msg "timestamp") (some (.str now1)) = some v := by
    cases v <;> simp_all [nullish, hv]
  have hms2 : nullish (jget msg "timestamp") (some (.str now2)) = some v := by
    cases v <;> simp_all [nullish, hv]
  simp only [Gemini.parseGeminiMessage, hms1, hms2]

theorem parseGeminiEntries_now_irrel (now1 now2 : String) (fileSize : Nat) (content : String)
    (offset limit : Int) (includeRaw : Bool) (maxFileSizeBytes : Option Nat) (path : String)
    (h : ∀ session, jsonParse content = some session →
      ∀ msg ∈ Gemini.messagesOf session, ∃ v, jget msg "timestamp" = some v ∧ v ≠ .null) :
    Gemini.parseGeminiEntries now1 fileSize content offset limit includeRaw maxFileSizeBytes path =
      Gemini.parseGeminiEntries now2 fileSize content offset limit includeRaw maxFileSizeBytes path := by
  cases hp : jsonParse content with
  | none => simp only [Gemini.parseGeminiEntries, hp]
  | some session =>
    have hmap :
        ((Gemini.messagesOf session).enum.map fun p =>
          Gemini.parseGeminiMessage now1 p.2 (p.1 : Int)) =
        ((Gemini.messagesOf session).enum.map fun p =>
          Gemini.parseGeminiMessage now2 p.2 (p.1 : Int)) := by
      refine List.map_congr_left fun p hp2 => ?_
      exact parseGeminiMessage_now_irrel now1 now2 p.2 p.1
        (h session hp p.2 (List.snd_mem_of_mem_enum hp2))
    simp only [Gemini.parseGeminiEntries, hp, hmap]

/-! ### Helper lemmas about the Codex summarizer and the schema logger -/

theorem codexStatsStep_accumulates (path : String) (acc : StatsAcc) (idx : Int)
    (line : String) (e : UnifiedEntry)
    (hp : (Codex.parseCodexEntry line idx path).1 = some e) :
    codexStatsStep path (acc, idx) line = (accumulateEntryStats acc e, idx + 1) := by
  cases hj : jsonParse line with
  | none => rw [Codex.parseCodexEntry] at hp; simp [hj] at hp
  | some obj => simp [codexStatsStep, hj, hp]

theorem loggerRun_issues (maxIssues : Nat) (entries : List (SchemaIssue × String)) :
    (loggerRun maxIssues entries).issues =
      (allStored entries).drop (entries.length - maxIssues) ∧
    (loggerRun maxIssues entries).counter = entries.length := by
  induction entries using List.reverseRecOn with
  | nil => simp [loggerRun, loggerInit, allStored]
  | append_singleton es e ih =>
    obtain ⟨ih1, ih2⟩ := ih
    have hlenA : (allStored es).length = es.length := by
      simp [allStored]
    have hrun : loggerRun maxIssues (es ++ [e]) =
        loggerLog maxIssues (loggerRun maxIssues es) e.1 e.2 := by
      simp [loggerRun, List.foldl_append]
    have hstored : allStored (es ++ [e]) =
        allStored es ++ [⟨"schema-issue-" ++ toString (es.length + 1), e.2, e.1⟩] := by
      simp [allStored, List.enum_append, List.enumFrom]
    set A := allStored es with hA
    set n := es.length with hn
    set newIssue : StoredIssue := ⟨"schema-issue-" ++ toString (n + 1), e.2, e.1⟩ with hnew
    have hdropLen : (A.drop (n - maxIssues)).length = n - (n - maxIssues) := by
      rw [List.length_drop, hlenA]
    rw [hrun]
    simp only [loggerLog, ih1, ih2, hstored]
    have hlen1 : (es ++ [e]).length = n + 1 := by simp [hn]
    rw [hlen1]
    constructor
    · by_cases hcase : (A.drop (n - maxIssues) ++ [newIssue]).length > maxIssues
      · rw [if_pos hcase]
        have hge : maxIssues ≤ n := by
          simp only [List.length_append, hdropLen, List.length_singleton] at hcase
          omega
        rw [List.drop_append_eq_append_drop, List.drop_drop,
          List.drop_append_eq_append_drop, hdropLen, hlenA]
        have h1 : n - maxIssues + 1 = n + 1 - maxIssues := by omega
        have h2 : 1 - (n - (n - maxIssues)) = n + 1 - maxIssues - n := by omega
        rw [h1, h2]
      · rw [if_neg hcase]
        have hlt : n + 1 ≤ maxIssues := by
          simp only [List.length_append, hdropLen, List.length_singleton] at hcase
          omega
        have h1 : n - maxIssues = 0 := by omega
        have h2 : n + 1 - maxIssues = 0 := by omega
        rw [h1, h2]
        simp
    · rfl

end AgentWatch

namespace AgentWatch

/-! ### Claim theorems -/

/-- C1 (counterexample): the claim promises that chunked reading at any
positive chunk size — including a chunk boundary landing mid-character —
delivers the same (line, index) sequence as splitting the whole decoded
content.  At chunk size 1 the two bytes of `é` are decoded separately,
each to U+FFFD, so the delivered line text differs from the whole-file
read. -/
theorem readJsonlLines_midchar_boundary_counterexample :
    (readJsonlLines [0xC3, 0xA9] 1).1 ≠ jsonlSpecLines [0xC3, 0xA9] ∧
    jsonlSpecLines [0xC3, 0xA9] = ["é"] ∧
    (readJsonlLines [0xC3, 0xA9] 1).1 = ["��"] := by
  refine ⟨?_, ?_, ?_⟩ <;> decide

/-- C1 (amended): for every file and positive chunk size, provided no
chunk boundary can split a multi-byte UTF-8 character (here: ASCII
content), `readJsonlLines` invokes its callback exactly once per non-blank
line in file order with the trimmed text and the position index, blank
lines consume no index, a final unterminated line is still delivered, and
the returned total is the number of non-blank lines — identical to
splitting the whole content on newlines, trimming, and dropping blanks. -/
theorem readJsonlLines_chunked_eq_whole (bytes : List Nat) (chunkSize : Nat)
    (hascii : ∀ b ∈ bytes, b < 0x80) (hpos : 0 < chunkSize) :
    readJsonlLines bytes chunkSize =
      (jsonlSpecLines bytes, (jsonlSpecLines bytes).length) := by
  have hflat : ((chunkList chunkSize bytes).map utf8DecodeLossy).flatten
      = utf8DecodeLossy bytes := by
    rw [flatten_map_decode _ ?hb, chunkList_flatten chunkSize hpos]
    case hb =>
      intro b hb
      exact hascii b (by rwa [chunkList_flatten chunkSize hpos] at hb)
  simp only [readJsonlLines, jsonlSpecLines, splitTrimNonblank]
  rw [readChunksCore_eq _ [] (by simp), List.nil_append, hflat]

/-- C1 witness: a file with blank lines, surrounding spaces and a final
newline, read at chunk size 2. -/
theorem readJsonlLines_chunked_eq_whole_witness :
    readJsonlLines [97, 10, 10, 32, 98, 10] 2 = (["a", "b"], 2) := by
  rw [readJsonlLines_chunked_eq_whole _ _ (by decide) (by decide)]
  decide

/-- C2: entry parsing never throws past the single-record boundary — a
line that `JSON.parse` rejects yields `null` for that record and logs a
`parse_error` carrying the raw line, in both JSONL adapters; and a file of
one well-formed record plus one garbage line yields exactly one entry, a
total of 2, and a `parse_error` diagnostic. -/
theorem entry_parsing_never_throws :
    (∀ (tsToISO : JsNum → String) (now line : String) (index : Int) (path : String),
      jsonParse line = none →
      Claude.parseClaudeEntry tsToISO now line index path =
        (none, [parseErrorIssue "claude" line index path])) ∧
    (∀ (line : String) (index : Int) (path : String),
      jsonParse line = none →
      Codex.parseCodexEntry line index path =
        (none, [parseErrorIssue "codex" line index path])) ∧
    ((Claude.parseClaudeEntriesSmall (fun _ => "") "1970-01-01T00:00:00.000Z"
        claudeMixedFile 0 500 false "session.jsonl").1.length = 1 ∧
      (Claude.parseClaudeEntriesSmall (fun _ => "") "1970-01-01T00:00:00.000Z"
        claudeMixedFile 0 500 false "session.jsonl").2.1 = 2 ∧
      "parse_error" ∈ ((Claude.parseClaudeEntriesSmall (fun _ => "") "1970-01-01T00:00:00.000Z"
        claudeMixedFile 0 500 false "session.jsonl").2.2.map (·.issueType))) := by
  refine ⟨?_, ?_, by decide, by decide, by decide⟩
  · intro tsToISO now line index path h
    simp [Claude.parseClaudeEntry, h]
  · intro line index path h
    simp [Codex.parseCodexEntry, h]

/-- C2 witness: the garbage line `GARBAGE` at two indices. -/
theorem entry_parsing_never_throws_witness :
    Claude.parseClaudeEntry (fun _ => "") "N" "GARBAGE" 0 "t.jsonl" =
      (none, [parseErrorIssue "claude" "GARBAGE" 0 "t.jsonl"]) ∧
    Codex.parseCodexEntry "GARBAGE" 1 "t.jsonl" =
      (none, [parseErrorIssue "codex" "GARBAGE" 1 "t.jsonl"]) :=
  ⟨entry_parsing_never_throws.1 (fun _ => "") "N" "GARBAGE" 0 "t.jsonl" (by decide),
   entry_parsing_never_throws.2.1 "GARBAGE" 1 "t.jsonl" (by decide)⟩

/-- C3: the Claude classifier's role-based decision table — a user-role
record with a `tool_result` block in its content array is `tool_result`,
otherwise `user`; an assistant-role record with a `tool_use` block is
`tool_call` (taking precedence over thinking), is `thinking` exactly when
every block is a thinking block, and is `assistant` otherwise. -/
theorem detectEntryType_role_reclassification :
    (∀ (obj : Json) (blocks : List Json),
      (jget obj "type" = some (.str "user") ∨
        (jget obj "type" ≠ some (.str "system") ∧ jget obj "type" ≠ some (.str "summary") ∧
          jget obj "type" ≠ some (.str "file-history-snapshot") ∧
          Claude.roleOf obj = some (.str "user"))) →
      Claude.contentOf obj = some (.arr blocks) →
      Claude.detectEntryType obj =
        (if blocks.any (Claude.blockTypeIs "tool_result") then "tool_result" else "user")) ∧
    (∀ (obj : Json) (blocks : List Json),
      jget obj "type" ≠ some (.str "user") →
      Claude.roleOf obj ≠ some (.str "user") →
      (jget obj "type" = some (.str "assistant") ∨
        (jget obj "type" ≠ some (.str "system") ∧ jget obj "type" ≠ some (.str "summary") ∧
          jget obj "type" ≠ some (.str "file-history-snapshot") ∧
          Claude.roleOf obj = some (.str "assistant"))) →
      Claude.contentOf obj = some (.arr blocks) →
      Claude.detectEntryType obj =
        (if blocks.any (Claude.blockTypeIs "tool_use") then "tool_call"
         else if blocks.all (Claude.blockTypeIs "thinking") then "thinking"
         else "assistant")) := by
  constructor
  · intro obj blocks huser hcontent
    rcases huser with htype | ⟨h1, h2, h3, hrole⟩
    · simp [Claude.detectEntryType, htype, hcontent]
    · simp [Claude.detectEntryType, hcontent, h1, h2, h3, hrole]
  · intro obj blocks htu hru hassist hcontent
    rcases hassist with htype | ⟨h1, h2, h3, hrole⟩
    · simp [Claude.detectEntryType, htype, hcontent, hru]
    · simp [Claude.detectEntryType, hcontent, h1, h2, h3, hrole, htu, hru]

/-- C3 witness: a user record carrying one tool_result block, and an
assistant record whose content is a single thinking block. -/
theorem detectEntryType_role_reclassification_witness :
    Claude.detectEntryType claudeUserToolResultObj = "tool_result" ∧
    Claude.detectEntryType claudeThinkingObj = "thinking" := by
  constructor
  · rw [detectEntryType_role_reclassification.1 claudeUserToolResultObj
      [Json.obj [("type", .str "tool_result")]] (Or.inl (by decide)) (by decide)]
    decide
  · rw [detectEntryType_role_reclassification.2 claudeThinkingObj
      [Json.obj [("type", .str "thinking")]] (by decide) (by decide)
      (Or.inl (by decide)) (by decide)]
    decide

/-- C4: a decoded record with no usable timestamp makes the Claude parser
log `missing_required_field`, substitute the supplied current time and
still return the entry, while the Codex parser logs the same issue type
and drops the record by returning `null`. -/
theorem missing_timestamp_divergence :
    (∀ (tsToISO : JsNum → String) (now line : String) (obj : Json) (index : Int) (path : String),
      jsonParse line = some obj → obj ≠ .null →
      ¬ truthy (Claude.resolveTimestamp tsToISO obj) →
      ((Claude.parseClaudeEntry tsToISO now line index path).1.map (·.timestamp)
          = some (.str now)) ∧
        missingTsIssue "claude" obj index path ∈
          (Claude.parseClaudeEntry tsToISO now line index path).2) ∧
    (∀ (line : String) (obj : Json) (index : Int) (path : String),
      jsonParse line = some obj → obj ≠ .null →
      ¬ truthy (jget obj "timestamp") →
      Codex.parseCodexEntry line index path =
        (none, [missingTsIssue "codex" obj index path])) := by
  constructor
  · intro tsToISO now line obj index path h hn hts
    cases obj with
    | null => exact absurd rfl hn
    | bool b => simp [Claude.parseClaudeEntry, h, Claude.parseClaudeEntryObj, hts]
    | num n => simp [Claude.parseClaudeEntry, h, Claude.parseClaudeEntryObj, hts]
    | str s => simp [Claude.parseClaudeEntry, h, Claude.parseClaudeEntryObj, hts]
    | arr es => simp [Claude.parseClaudeEntry, h, Claude.parseClaudeEntryObj, hts]
    | obj fs => simp [Claude.parseClaudeEntry, h, Claude.parseClaudeEntryObj, hts]
  · intro line obj index path h hn hts
    cases obj with
    | null => exact absurd rfl hn
    | bool b => simp [Codex.parseCodexEntry, h, hts]
    | num n => simp [Codex.parseCodexEntry, h, hts]
    | str s => simp [Codex.parseCodexEntry, h, hts]
    | arr es => simp [Codex.parseCodexEntry, h, hts]
    | obj fs => simp [Codex.parseCodexEntry, h, hts]

/-- C4 witness: a timestampless summary record (Claude keeps it, stamped
with the supplied clock) and a timestampless event record (Codex drops it). -/
theorem missing_timestamp_divergence_witness :
    ((Claude.parseClaudeEntry (fun _ => "") "NOW" claudeNoTsLine 0 "p").1.map (·.timestamp)
        = some (.str "NOW")) ∧
    Codex.parseCodexEntry codexNoTsLine 0 "p" =
      (none, [missingTsIssue "codex" codexNoTsObj 0 "p"]) :=
  ⟨(missing_timestamp_divergence.1 (fun _ => "") "NOW" claudeNoTsLine claudeNoTsObj 0 "p"
      (by decide) (by decide) (by decide)).1,
   missing_timestamp_divergence.2 codexNoTsLine codexNoTsObj 0 "p"
      (by decide) (by decide) (by decide)⟩

/-- C5 (counterexample): the Codex pagination does not clamp a negative
offset to 0 — JavaScript slice semantics address from the end of the line
list, so `offset = -1` returns the last record instead of the clamped
window. -/
theorem codex_negative_offset_not_clamped :
    (Codex.parseCodexEntriesSmall codexTwoLineFile (-1) 500 false "p").1 ≠
      (Codex.parseCodexEntriesSmall codexTwoLineFile 0 500 false "p").1 ∧
    (Codex.parseCodexEntriesSmall codexTwoLineFile (-1) 500 false "p").1.length = 1 ∧
    (Codex.parseCodexEntriesSmall codexTwoLineFile 0 500 false "p").1.length = 2 := by
  refine ⟨?_, ?_, ?_⟩ <;> decide

/-- C5 (amended): the Gemini paginator clamps negative offset and limit
to 0; in the shared JSONL windowing (both the small-file and single-pass
large-file shapes) a limit of 0 yields empty entries with the correct
total, an offset at or past the total yields empty entries, and the total
is independent of offset and limit and agrees between both paths; the
Gemini paginator satisfies the same three boundary facts whenever it
succeeds — with limit 0 the entries list is empty, with offset at or past
the returned total the entries list is empty, and the returned total and
issues are independent of offset, limit and includeRaw.  The Codex (and
legacy Claude) windowing applies raw JavaScript slice semantics to a
negative offset instead of clamping. -/
theorem pagination_window_boundaries :
    (∀ (now : String) (fileSize : Nat) (content : String) (offset limit : Int)
        (includeRaw : Bool) (maxFileSizeBytes : Option Nat) (path : String),
      Gemini.parseGeminiEntries now fileSize content offset limit includeRaw maxFileSizeBytes path =
        Gemini.parseGeminiEntries now fileSize content (max 0 offset) (max 0 limit)
          includeRaw maxFileSizeBytes path) ∧
    (∀ (parse : String → Int → Option UnifiedEntry × List SchemaIssue)
        (content : String) (offset : Int) (includeRaw : Bool),
      windowedSmall parse content offset 0 includeRaw =
        ([], (filterTrimLines content).length, [])) ∧
    (∀ (parse : String → Int → Option UnifiedEntry × List SchemaIssue)
        (content : String) (offset : Int) (includeRaw : Bool),
      windowedLarge parse content offset 0 includeRaw =
        ([], (splitTrimNonblank content.toList).length, [])) ∧
    (∀ (parse : String → Int → Option UnifiedEntry × List SchemaIssue)
        (content : String) (offset limit : Int) (includeRaw : Bool),
      ((filterTrimLines content).length : Int) ≤ offset →
      windowedSmall parse content offset limit includeRaw =
        ([], (filterTrimLines content).length, [])) ∧
    (∀ (parse : String → Int → Option UnifiedEntry × List SchemaIssue)
        (content : String) (offset limit : Int) (includeRaw : Bool),
      ((splitTrimNonblank content.toList).length : Int) ≤ offset →
      windowedLarge parse content offset limit includeRaw =
        ([], (splitTrimNonblank content.toList).length, [])) ∧
    (∀ (parse : String → Int → Option UnifiedEntry × List SchemaIssue)
        (content : String) (offset limit : Int) (includeRaw : Bool),
      (windowedSmall parse content offset limit includeRaw).2.1 =
        (filterTrimLines content).length) ∧
    (∀ (parse : String → Int → Option UnifiedEntry × List SchemaIssue)
        (content : String) (offset limit : Int) (includeRaw : Bool),
      (windowedLarge parse content offset limit includeRaw).2.1 =
        (splitTrimNonblank content.toList).length) ∧
    (∀ content : String,
      (filterTrimLines content).length = (splitTrimNonblank content.toList).length) ∧
    (∀ (now : String) (fileSize : Nat) (content : String) (offset : Int)
        (includeRaw : Bool) (maxFileSizeBytes : Option Nat) (path : String)
        (entries : List UnifiedEntry) (total : Nat) (issues : List SchemaIssue),
      Gemini.parseGeminiEntries now fileSize content offset 0 includeRaw
          maxFileSizeBytes path = Except.ok (entries, total, issues) →
      entries = []) ∧
    (∀ (now : String) (fileSize : Nat) (content : String) (offset limit : Int)
        (includeRaw : Bool) (maxFileSizeBytes : Option Nat) (path : String)
        (entries : List UnifiedEntry) (total : Nat) (issues : List SchemaIssue),
      Gemini.parseGeminiEntries now fileSize content offset limit includeRaw
          maxFileSizeBytes path = Except.ok (entries, total, issues) →
      (total : Int) ≤ offset →
      entries = []) ∧
    (∀ (now : String) (fileSize : Nat) (content : String) (o1 l1 o2 l2 : Int)
        (ir1 ir2 : Bool) (maxFileSizeBytes : Option Nat) (path : String)
        (es1 es2 : List UnifiedEntry) (t1 t2 : Nat) (i1 i2 : List SchemaIssue),
      Gemini.parseGeminiEntries now fileSize content o1 l1 ir1 maxFileSizeBytes path =
        Except.ok (es1, t1, i1) →
      Gemini.parseGeminiEntries now fileSize content o2 l2 ir2 maxFileSizeBytes path =
        Except.ok (es2, t2, i2) →
      t1 = t2 ∧ i1 = i2) :=
  ⟨parseGeminiEntries_clamps, windowedSmall_limit_zero, windowedLarge_limit_zero,
    windowedSmall_offset_ge, windowedLarge_offset_ge, windowedSmall_total,
    windowedLarge_total, filterTrimLines_length, parseGeminiEntries_limit_zero,
    parseGeminiEntries_offset_ge, parseGeminiEntries_total_indep⟩

/-- C5 witness: the two-record Codex file windowed past its total, and the
one-message Gemini session at limit 0, past-total offset, and two windows. -/
theorem pagination_window_boundaries_witness :
    windowedSmall (fun l i => Codex.parseCodexEntry l i "p") codexTwoLineFile 5 500 false =
      ([], 2, []) ∧
    windowedLarge (fun l i => Codex.parseCodexEntry l i "p") codexTwoLineFile 5 500 false =
      ([], 2, []) ∧
    (Gemini.parseGeminiEntries "N" 100 geminiSessionFile 3 0 false none "p" =
      Except.ok ([], 1, []) ∧ ([] : List UnifiedEntry) = []) ∧
    (Gemini.parseGeminiEntries "N" 100 geminiSessionFile 5 500 false none "p" =
      Except.ok ([], 1, []) ∧ ((1 : Nat) : Int) ≤ 5 ∧ ([] : List UnifiedEntry) = []) ∧
    ((1 : Nat) = 1 ∧ ([] : List SchemaIssue) = []) := by
  refine ⟨?_, ?_, ?_, ?_, ?_⟩
  · rw [pagination_window_boundaries.2.2.2.1 (fun l i => Codex.parseCodexEntry l i "p")
      codexTwoLineFile 5 500 false (by decide)]
    decide
  · rw [pagination_window_boundaries.2.2.2.2.1 (fun l i => Codex.parseCodexEntry l i "p")
      codexTwoLineFile 5 500 false (by decide)]
    decide
  · exact ⟨by rfl, pagination_window_boundaries.2.2.2.2.2.2.2.2.1 "N" 100
      geminiSessionFile 3 false none "p" [] 1 [] (by rfl)⟩
  · exact ⟨by rfl, by decide, pagination_window_boundaries.2.2.2.2.2.2.2.2.2.1 "N" 100
      geminiSessionFile 5 500 false none "p" [] 1 [] (by rfl) (by decide)⟩
  · exact pagination_window_boundaries.2.2.2.2.2.2.2.2.2.2 "N" 100 geminiSessionFile
      3 0 5 500 false false none "p" [] [] 1 1 [] [] (by rfl) (by rfl)

end AgentWatch

namespace AgentWatch

/-- C6: only the Gemini entry paginator enforces `maxFileSizeBytes` —
failing before any content is examined, with a descriptive message, and
applying the implicit 50 MB default when the option is omitted — while
the Codex implementation ignores the option its public signature accepts
and parses an oversized file successfully.  (The repository's own test
suite expects `parseCodexEntries` with `maxFileSizeBytes: 1` to reject.) -/
theorem size_cap_enforced_only_by_gemini :
    Codex.parseCodexEntriesCall 1000 codexTwoLineFile 0 500 false (some 1) "p" =
      Except.ok (Codex.parseCodexEntriesSmall codexTwoLineFile 0 500 false "p") ∧
    (Codex.parseCodexEntriesSmall codexTwoLineFile 0 500 false "p").1.length = 2 ∧
    (∀ (now : String) (fileSize : Nat) (content : String) (offset limit : Int)
        (includeRaw : Bool) (maxBytes : Nat) (path : String),
      maxBytes < fileSize →
      Gemini.parseGeminiEntries now fileSize content offset limit includeRaw (some maxBytes) path =
        Except.error ("Gemini transcript exceeds maxFileSizeBytes (" ++ toString fileSize
          ++ " > " ++ toString maxBytes ++ ").")) ∧
    (∀ (now content : String) (offset limit : Int) (includeRaw : Bool) (path : String)
        (fileSize : Nat), 50 * 1024 * 1024 < fileSize →
      Gemini.parseGeminiEntries now fileSize content offset limit includeRaw none path =
        Except.error ("Gemini transcript exceeds maxFileSizeBytes (" ++ toString fileSize
          ++ " > " ++ toString (50 * 1024 * 1024 : Nat) ++ ").")) := by
  refine ⟨rfl, by decide, ?_, ?_⟩
  · intro now fileSize content offset limit includeRaw maxBytes path h
    simp only [Gemini.parseGeminiEntries, Option.getD_some]
    rw [if_pos h]
  · intro now content offset limit includeRaw path fileSize h
    simp only [Gemini.parseGeminiEntries, Option.getD_none]
    rw [if_pos h]

/-- C6 witness: an oversized Gemini file against an explicit 1-byte cap
and against the implicit default cap. -/
theorem size_cap_enforced_only_by_gemini_witness :
    Gemini.parseGeminiEntries "N" 1000 "x" 0 500 false (some 1) "p" =
      Except.error "Gemini transcript exceeds maxFileSizeBytes (1000 > 1)." ∧
    Gemini.parseGeminiEntries "N" 52428801 "x" 0 500 false none "p" =
      Except.error "Gemini transcript exceeds maxFileSizeBytes (52428801 > 52428800)." := by
  constructor
  · rw [size_cap_enforced_only_by_gemini.2.2.1 "N" 1000 "x" 0 500 false 1 "p" (by decide)]
    congr 1
  · rw [size_cap_enforced_only_by_gemini.2.2.2 "N" "x" 0 500 false "p" 52428801 (by decide)]
    congr 1

set_option maxRecDepth 40000

/-- C7 (counterexample): the Codex summarizer does not deduplicate
token-count snapshots — two consecutive `token_count` events carrying an
identical running total contribute to the accumulated stats twice, not
once as the claim states. -/
theorem codex_duplicate_token_total_counted_twice :
    (parseCodexTranscriptStats codexTokenDupFile "r.jsonl").input ≠
      (parseCodexTranscriptStats codexTokenCountLine "r.jsonl").input ∧
    (parseCodexTranscriptStats codexTokenDupFile "r.jsonl").input = .num ⟨2, 0⟩ ∧
    (parseCodexTranscriptStats codexTokenCountLine "r.jsonl").input = .num ⟨1, 0⟩ := by
  refine ⟨?_, ?_, ?_⟩ <;> decide

/-- C7 (amended): the summarizer's per-line step accumulates every parsed
entry's usage unconditionally — it keeps no memory of the previous
snapshot's total — so the two-duplicate-snapshot file accumulates each
usage field twice while also classifying both events (`entryTypes` counts
`system` twice). -/
theorem codex_token_count_no_dedup :
    (∀ (path : String) (acc : StatsAcc) (idx : Int) (line : String) (e : UnifiedEntry),
      (Codex.parseCodexEntry line idx path).1 = some e →
      codexStatsStep path (acc, idx) line = (accumulateEntryStats acc e, idx + 1)) ∧
    parseCodexTranscriptStats codexTokenDupFile "r.jsonl" =
      { input := .num ⟨2, 0⟩, output := .num ⟨4, 0⟩, cached := .num ⟨2, 0⟩,
        total := .num ⟨6, 0⟩, entryTypes := [("system", 2)], tools := [], models := [] } :=
  ⟨codexStatsStep_accumulates, by decide⟩

/-- C7 witness: one concrete `token_count` event accumulated through the
summarizer's step. -/
theorem codex_token_count_no_dedup_witness :
    codexStatsStep "r.jsonl" ({}, 0) codexTokenCountLine =
      (accumulateEntryStats {} codexTokenEntry, 1) :=
  codex_token_count_no_dedup.1 "r.jsonl" {} 0 codexTokenCountLine codexTokenEntry (by decide)

/-- C8 (counterexample): a Gemini message with a 2-element `thoughts`
array and a 1-element `toolCalls` array carrying a `result`, but neither
content nor a recognized `type`, expands to 4 entries, not the 5 the
claim promises — the main message entry is only synthesized when the
message has truthy content or a recognized type. -/
theorem gemini_expansion_counterexample :
    (Gemini.parseGeminiMessage "N" geminiBareMessage 0).map List.length ≠ some 5 ∧
    (Gemini.parseGeminiMessage "N" geminiBareMessage 0).map List.length = some 4 := by
  refine ⟨?_, ?_⟩ <;> decide

/-- C8 (amended): a Gemini message with a 2-element `thoughts` array and a
1-element `toolCalls` array whose tool call carries a `result` field
expands to exactly 5 entries — 1 message entry, 2 thinking entries, 1
tool_call and 1 tool_result sharing the same `toolCallId` — provided the
message has truthy content or a recognized `user`/`gemini` type (and no
array element is `null`, which would raise). -/
theorem gemini_message_expansion (now : String) (msg : Json) (index : Int)
    (t1 t2 tc r : Json)
    (hth : jget msg "thoughts" = some (.arr [t1, t2]))
    (htc : jget msg "toolCalls" = some (.arr [tc]))
    (hr : jget tc "result" = some r)
    (ht1 : t1 ≠ .null) (ht2 : t2 ≠ .null) (htcn : tc ≠ .null)
    (hmain : truthy (jget msg "content") ∨ jget msg "type" = some (.str "user") ∨
      jget msg "type" = some (.str "gemini")) :
    (Gemini.parseGeminiMessage now msg index).map (List.map (·.type)) =
      some [(if jget msg "type" = some (.str "user") then "user"
             else if jget msg "type" = some (.str "gemini") then "assistant"
             else "unknown"),
            "thinking", "thinking", "tool_call", "tool_result"] ∧
    ∃ tid, (Gemini.parseGeminiMessage now msg index).map (List.map (·.toolCallId)) =
      some [none, none, none, some tid, some tid] := by
  have hobj : ¬(msg = .null) := by
    intro h; rw [h] at hth; simp [jget] at hth
  rcases hmain with hc | hu | hg
  · constructor
    · simp [Gemini.parseGeminiMessage, hobj, hth, htc, hr, ht1, ht2, htcn, hc,
        List.enum_cons, List.enumFrom]
    · refine ⟨(nullish (jget tc "id") (some (.str (jsToString ((nullish (jget msg "id")
        (some (.str ("gemini-msg-" ++ toString index)))).getD .null) ++ "-tool-" ++
        toString (0 : Nat))))).getD .null, ?_⟩
      simp [Gemini.parseGeminiMessage, hobj, hth, htc, hr, ht1, ht2, htcn, hc,
        List.enum_cons, List.enumFrom]
  · constructor
    · simp [Gemini.parseGeminiMessage, hobj, hth, htc, hr, ht1, ht2, htcn, hu,
        List.enum_cons, List.enumFrom]
    · refine ⟨(nullish (jget tc "id") (some (.str (jsToString ((nullish (jget msg "id")
        (some (.str ("gemini-msg-" ++ toString index)))).getD .null) ++ "-tool-" ++
        toString (0 : Nat))))).getD .null, ?_⟩
      simp [Gemini.parseGeminiMessage, hobj, hth, htc, hr, ht1, ht2, htcn, hu,
        List.enum_cons, List.enumFrom]
  · constructor
    · simp [Gemini.parseGeminiMessage, hobj, hth, htc, hr, ht1, ht2, htcn, hg,
        List.enum_cons, List.enumFrom]
    · refine ⟨(nullish (jget tc "id") (some (.str (jsToString ((nullish (jget msg "id")
        (some (.str ("gemini-msg-" ++ toString index)))).getD .null) ++ "-tool-" ++
        toString (0 : Nat))))).getD .null, ?_⟩
      simp [Gemini.parseGeminiMessage, hobj, hth, htc, hr, ht1, ht2, htcn, hg,
        List.enum_cons, List.enumFrom]

/-- C8 witness: a user message with 2 thoughts and 1 resolved tool call
expands to the full 5-entry shape. -/
theorem gemini_message_expansion_witness :
    (Gemini.parseGeminiMessage "N" geminiRichMessage 0).map (List.map (·.type)) =
      some ["user", "thinking", "thinking", "tool_call", "tool_result"] := by
  have h := gemini_message_expansion "N" geminiRichMessage 0
    (.obj [("subject", .str "a")]) (.obj [("subject", .str "b")])
    (.obj [("id", .str "t1"), ("name", .str "search"), ("result", .str "ok")]) (.str "ok")
    (by decide) (by decide) (by decide) (by decide) (by decide) (by decide)
    (Or.inl (by decide))
  rw [h.1]
  decide

end AgentWatch

namespace AgentWatch

/-- C9 (counterexample): the Claude parse result is not a function of file
content and options alone — a record with no timestamp is stamped with the
ambient clock, so two parses of the same file at different clock readings
yield different entries. -/
theorem claude_parse_reads_clock_counterexample :
    Claude.parseClaudeEntriesSmall (fun _ => "") "2024-01-01T00:00:00.000Z"
        claudeNoTsLine 0 500 false "p" ≠
      Claude.parseClaudeEntriesSmall (fun _ => "") "2024-01-01T00:00:00.001Z"
        claudeNoTsLine 0 500 false "p" := by decide

/-- C9 (amended): the parse result is a deterministic function of file
content, options and the ambient clock; the clock is consulted only for
records without a usable timestamp, so for files in which every decodable
record carries one, parsing at any two clock readings yields identical
entries, totals and diagnostics (the Codex record parser reads no clock
at all — its embedding takes no `now` parameter). -/
theorem parse_clock_independent_given_timestamps :
    (∀ (tsToISO : JsNum → String) (now1 now2 content : String) (offset limit : Int)
        (includeRaw : Bool) (path : String),
      (∀ line ∈ filterTrimLines content, ∀ obj, jsonParse line = some obj →
        truthy (Claude.resolveTimestamp tsToISO obj)) →
      Claude.parseClaudeEntriesSmall tsToISO now1 content offset limit includeRaw path =
        Claude.parseClaudeEntriesSmall tsToISO now2 content offset limit includeRaw path) ∧
    (∀ (now1 now2 : String) (fileSize : Nat) (content : String) (offset limit : Int)
        (includeRaw : Bool) (maxFileSizeBytes : Option Nat) (path : String),
      (∀ session, jsonParse content = some session →
        ∀ msg ∈ Gemini.messagesOf session, ∃ v, jget msg "timestamp" = some v ∧ v ≠ .null) →
      Gemini.parseGeminiEntries now1 fileSize content offset limit includeRaw
          maxFileSizeBytes path =
        Gemini.parseGeminiEntries now2 fileSize content offset limit includeRaw
          maxFileSizeBytes path) := by
  constructor
  · intro tsToISO now1 now2 content offset limit includeRaw path h
    exact windowedSmall_congr _ _ content offset limit includeRaw
      (fun line hl idx => parseClaudeEntry_now_irrel tsToISO now1 now2 line idx path
        (fun obj hobj => h line hl obj hobj))
  · exact parseGeminiEntries_now_irrel

/-- C9 witness: fully timestamped Claude and Gemini fixtures parsed at two
different clock readings. -/
theorem parse_clock_independent_given_timestamps_witness :
    Claude.parseClaudeEntriesSmall (fun _ => "") "A" claudeSummaryLine 0 500 false "p" =
      Claude.parseClaudeEntriesSmall (fun _ => "") "B" claudeSummaryLine 0 500 false "p" ∧
    Gemini.parseGeminiEntries "A" 100 geminiSessionFile 0 500 false none "p" =
      Gemini.parseGeminiEntries "B" 100 geminiSessionFile 0 500 false none "p" := by
  constructor
  · refine parse_clock_independent_given_timestamps.1 (fun _ => "") "A" "B"
      claudeSummaryLine 0 500 false "p" ?_
    intro line hl obj hobj
    have hf : filterTrimLines claudeSummaryLine = [claudeSummaryLine] := by decide
    rw [hf] at hl
    simp only [List.mem_singleton] at hl
    subst hl
    have hj : jsonParse claudeSummaryLine = some (.obj [("type", .str "summary"),
      ("summary", .str "hi"), ("timestamp", .str "2024-01-01T00:00:00Z")]) := by decide
    rw [hj] at hobj
    have hobj2 := Option.some.inj hobj
    subst hobj2
    decide
  · refine parse_clock_independent_given_timestamps.2 "A" "B" 100 geminiSessionFile
      0 500 false none "p" ?_
    intro session hs msg hmsg
    have hj : jsonParse geminiSessionFile = some geminiSessionObj := by decide
    rw [hj] at hs
    have hs2 := Option.some.inj hs
    subst hs2
    have hm : Gemini.messagesOf geminiSessionObj = [.obj [("type", .str "user"),
      ("content", .str "hi"), ("timestamp", .str "T")]] := by decide
    rw [hm] at hmsg
    simp only [List.mem_singleton] at hmsg
    subst hmsg
    exact ⟨.str "T", by decide, by decide⟩

/-- C10: the in-memory schema logger retains at most `maxIssues` issues —
once the stored count would exceed the cap the oldest stored issue is
evicted, so after any sequence of `log` calls `getIssues()` holds exactly
the most recent `min n maxIssues` stamped issues and `getStats().total`
agrees. -/
theorem schema_logger_caps_retention :
    ∀ (maxIssues : Nat) (entries : List (SchemaIssue × String)),
      getIssues (loggerRun maxIssues entries) =
        (allStored entries).drop (entries.length - maxIssues) ∧
      (getIssues (loggerRun maxIssues entries)).length = min entries.length maxIssues ∧
      (getStats (loggerRun maxIssues entries)).1 = min entries.length maxIssues := by
  intro maxIssues entries
  obtain ⟨h1, _⟩ := loggerRun_issues maxIssues entries
  have hlen : (getIssues (loggerRun maxIssues entries)).length =
      min entries.length maxIssues := by
    rw [getIssues, h1, List.length_drop]
    have hA : (allStored entries).length = entries.length := by simp [allStored]
    rw [hA]
    omega
  exact ⟨h1, hlen, hlen⟩

end AgentWatch
